import Mathlib

/-!
# slack-sec-autorem: the consumption loop of `cmd/slack-sec-autorem/main.go`

A shallow embedding of `main` (lines 77-112): the loop over the RTM event
stream, the message-type and authorship filters, the loop over the configured
rules, and for every matching rule the permalink lookup, the channel-URL
truncation, the reminder registration and the ephemeral acknowledgment.

Modelling decisions.

* A Go `string` is a sequence of bytes: `GoString := List (Fin 256)`.
  The literals of the source are ASCII and are written `ascii "..."`.
* The Slack client, the wall clock and the formatting verbs of `fmt` are
  libraries outside this repository.  They are the fields of an `Env σ`, where
  `σ` is the state of the outside world: every remote call takes the world and
  returns its outcome together with the next world, so an outcome may depend on
  everything that happened before.
* A Go `error` is represented by the text that `%v` prints for it.
* What the program does is recorded as a trace of `Action`s: the remote calls
  (with their outcomes) and the log lines, in program order.
* A run-time panic (nil dereference, slice bound out of range, failed type
  assertion) in the main goroutine ends the process; `Result.panicked` records
  it.
* `time.Duration` is an `int64` count of nanoseconds, `time.Time` a Unix
  second count with a nanosecond part below `10^9`.  The arithmetic is done in `Int`; the
  second count of a `time.Now()` reading is below `2^36` and a duration spans
  fewer than `2^34` seconds, so no `int64` operation of `Time.Add` wraps.
* `int(x)` on the `int64` Unix time is the identity (64-bit `int`).
* The event channel is a finite list of the events delivered so far.
-/

namespace SlackSecAutorem

/-! ## Go strings -/

/-- One byte of a Go string. -/
abbrev Byte := Fin 256

/-- Go `string`: an immutable byte sequence. -/
abbrev GoString := List Byte

/-- Bytes of an ASCII source literal. -/
def ascii (s : String) : GoString :=
  s.toList.map (fun c => Fin.ofNat c.toNat)

/-- The byte `'/'`, the only byte of the separator literal `"/"` of line 99. -/
def slash : Byte := 47

/-- Loop of `strings.LastIndexByte`:
`for i := len(s) - 1; i >= 0; i-- { if s[i] == c { return i } }; return -1`.
The argument counts the bytes still to be inspected, so the byte looked at is
`s[i]` for the argument `i + 1`. -/
def lastIndexByteLoop (s : GoString) (c : Byte) : Nat → Int
  | 0 => -1
  | i + 1 => if s[i]? = some c then (i : Int) else lastIndexByteLoop s c i

/-- The call `strings.LastIndex(s, "/")` for a one-byte separator, which the
library answers with `LastIndexByte(s, substr[0])`: the index of the last
occurrence of the byte, or `-1`. -/
def LastIndex (s : GoString) (c : Byte) : Int :=
  lastIndexByteLoop s c s.length

/-- Slice expression `s[:hi]`: a run-time panic (`none`) unless
`0 <= hi <= len(s)`. -/
def sliceTo (s : GoString) (hi : Int) : Option GoString :=
  if 0 ≤ hi ∧ hi ≤ (s.length : Int) then some (s.take hi.toNat) else none

/-- Lines 98-99: `channelURL = perm.Permalink[:strings.LastIndex(perm.Permalink, "/")]`. -/
def channelURL (permalink : GoString) : Option GoString :=
  sliceTo permalink (LastIndex permalink slash)

/-! ## Time -/

/-- Nanoseconds per second (`time.Second`). -/
def Second : Int := 1000000000

/-- Value of `time.Time` as a wall-clock instant: seconds since the Unix epoch
and nanoseconds within the second. The library keeps the nanoseconds in
`[0, 999999999]`; the bound is part of the type. -/
structure Time where
  sec : Int
  nsec : Nat
  nsec_lt : nsec < 1000000000
  deriving DecidableEq

/-- The instant in nanoseconds since the Unix epoch. -/
def Time.nanos (t : Time) : Int := t.sec * Second + (t.nsec : Int)

/-- The library function `func (t Time) Add(d Duration) Time`:
`dsec := int64(d / 1e9); nsec := t.nsec() + int32(d % 1e9)`, then
`if nsec >= 1e9 { dsec++; nsec -= 1e9 } else if nsec < 0 { dsec--; nsec += 1e9 }`
and the seconds are advanced by `dsec`. Go's `/` and `%` truncate toward zero. -/
def Time.Add (t : Time) (d : Int) : Time :=
  if h1 : (t.nsec : Int) + Int.tmod d Second ≥ Second then
    ⟨t.sec + (Int.tdiv d Second + 1), ((t.nsec : Int) + Int.tmod d Second - Second).toNat, by
      have h2 := Int.tmod_lt_of_pos d (show (0 : Int) < Second by decide)
      have h3 := t.nsec_lt
      simp only [Second] at h1 h2 ⊢
      omega⟩
  else if h2 : (t.nsec : Int) + Int.tmod d Second < 0 then
    ⟨t.sec + (Int.tdiv d Second - 1), ((t.nsec : Int) + Int.tmod d Second + Second).toNat, by
      simp only [Second] at h2 ⊢
      omega⟩
  else
    ⟨t.sec + Int.tdiv d Second, ((t.nsec : Int) + Int.tmod d Second).toNat, by
      simp only [Second] at h1 h2 ⊢
      omega⟩

/-- The library function `func (t Time) Unix() int64`: whole seconds since the epoch. -/
def Time.Unix (t : Time) : Int := t.sec

/-- Line 102: `int(time.Now().Add(r.RemindAfter).Unix())` for the clock reading `now`. -/
def triggerTime (now : Time) (remindAfter : Int) : Int :=
  (now.Add remindAfter).Unix

/-! ## Configuration -/

/-- A compiled regular expression, the target of a non-nil `*regexp.Regexp`,
known only through `MatchString`. -/
structure Regexp where
  MatchString : GoString → Bool

/-- Lines 28-30: `type regexpString struct { *regexp.Regexp }`. The embedded
pointer is set by `UnmarshalYAML` (lines 33-46) alone, which the decoder calls
for a rule that has a `pattern` key; for a rule without the key the pointer
stays nil (`none`) and the decoder reports no error. -/
structure regexpString where
  Regexp : Option Regexp

/-- Line 88: `r.Pattern.MatchString(msg.Text)`, the method of the embedded
pointer. On a nil pointer the call is a nil dereference, a run-time panic
(`none`). -/
def regexpString.MatchString (p : regexpString) (s : GoString) : Option Bool :=
  match p.Regexp with
  | none => none
  | some re => some (re.MatchString s)

/-- Lines 23-26: `type rule struct`. `RemindAfter` is a `time.Duration`,
a signed count of nanoseconds. -/
structure rule where
  Pattern : regexpString
  RemindAfter : Int

/-- Range of the field type `time.Duration` (`int64`). -/
def rule.wellTyped (r : rule) : Prop :=
  -(2 : Int) ^ 63 ≤ r.RemindAfter ∧ r.RemindAfter < (2 : Int) ^ 63

instance (r : rule) : Decidable r.wellTyped := by
  unfold rule.wellTyped; infer_instance

/-- Lines 19-21: `type config struct`. -/
structure config where
  Rules : List rule

/-- Lines 51-60 after the file was read: `yaml.Unmarshal(b, &conf)`, with the
library decoder as a parameter. An error is fatal (`none`: the process exits
before the loop); otherwise the decoded value is used as it is. -/
def loadConfig (unmarshal : GoString → Except GoString config) (b : GoString) :
    Option config :=
  match unmarshal b with
  | .error _ => none
  | .ok conf => some conf

/-! ## Events -/

/-- The type `rtm.EventType`: the constant `rtm.MessageType` and every other kind. -/
inductive EventType where
  | MessageType
  | other (code : Nat)
  deriving DecidableEq

/-- Fields of `rtm.MessageEvent` that `main` reads. -/
structure MessageEvent where
  User : GoString
  Text : GoString
  Channel : GoString
  Timestamp : GoString
  deriving DecidableEq

/-- Dynamic content of `e.Data()`: a `*rtm.MessageEvent` or anything else. -/
inductive EventData where
  | message (msg : MessageEvent)
  | other
  deriving DecidableEq

/-- An event of the RTM stream: `e.Type()` and `e.Data()`. -/
structure Event where
  Typ : EventType
  Data : EventData
  deriving DecidableEq

/-! ## The outside world -/

deriving instance DecidableEq for Except

/-- The collaborators of the loop, over a world state `σ`.
`GetPermalink channel ts` is `cli.Chat().GetPermalink(channel, ts).Do(ctx)`
and returns the error, or with a nil error the response: `some` of its
`Permalink` field, or `none` for a nil response pointer;
`RemindersAdd text time` is `cli.Reminders().Add(text, time).Do(ctx)`;
`PostEphemeral channel text user` is `cli.Chat().PostEphemeral(...).Do(ctx)`;
`Now` is `time.Now()`; `durationString` is `time.Duration.String`, used by
the verb `%s`; `quote` is the verb `%q` on a string. -/
structure Env (σ : Type) where
  GetPermalink : GoString → GoString → σ → Except GoString (Option GoString) × σ
  RemindersAdd : GoString → Int → σ → Except GoString Unit × σ
  PostEphemeral : GoString → GoString → GoString → σ → Except GoString Unit × σ
  Now : σ → Time × σ
  durationString : Int → GoString
  quote : GoString → GoString

/-- Observable steps of the loop: the three remote calls with their arguments
and outcome, and the lines given to `log.Printf`. -/
inductive Action where
  | getPermalink (channel ts : GoString) (res : Except GoString (Option GoString))
  | remindersAdd (text : GoString) (time : Int) (res : Except GoString Unit)
  | postEphemeral (channel text user : GoString) (res : Except GoString Unit)
  | log (line : GoString)
  deriving DecidableEq

/-- Outcome of a piece of the loop: what it did, the world it left, and
whether it ended in a run-time panic. -/
structure Result (σ : Type) where
  trace : List Action
  world : σ
  panicked : Bool

/-- Sequencing of two pieces of the loop: the second runs only if the first
did not panic. -/
def Result.andThen {σ : Type} (a : Result σ) (k : σ → Result σ) : Result σ :=
  if a.panicked then a
  else ⟨a.trace ++ (k a.world).trace, (k a.world).world, (k a.world).panicked⟩

/-! ## The loop -/

/-- Line 101: `fmt.Sprintf("<%s|%s> in <%s|%s>", perm.Permalink, msg.Text, channelURL, msg.Channel)`. -/
def displayText (permalink text channelURL channel : GoString) : GoString :=
  ascii "<" ++ permalink ++ ascii "|" ++ text ++ ascii "> in <" ++ channelURL ++
    ascii "|" ++ channel ++ ascii ">"

/-- Line 110: `fmt.Sprintf("set reminder after %s", r.RemindAfter)`. -/
def ackText {σ : Type} (env : Env σ) (r : rule) : GoString :=
  ascii "set reminder after " ++ env.durationString r.RemindAfter

/-- Lines 92-110: the body of the rule loop for a rule whose pattern matched.
Reading `perm.Permalink` from a nil response (line 98) and the slice with a
bound out of range (line 99) are run-time panics. -/
def ruleBody {σ : Type} (env : Env σ) (msg : MessageEvent) (r : rule) (w : σ) : Result σ :=
  let p := env.GetPermalink msg.Channel msg.Timestamp w
  match p.1 with
  | .error err =>
    ⟨[.getPermalink msg.Channel msg.Timestamp (.error err),
      .log (ascii "failed to get permalink: " ++ err)], p.2, false⟩
  | .ok none => ⟨[.getPermalink msg.Channel msg.Timestamp (.ok none)], p.2, true⟩
  | .ok (some permalink) =>
    match channelURL permalink with
    | none => ⟨[.getPermalink msg.Channel msg.Timestamp (.ok (some permalink))], p.2, true⟩
    | some url =>
      let text := displayText permalink msg.Text url msg.Channel
      let n := env.Now p.2
      let a := env.RemindersAdd text (triggerTime n.1 r.RemindAfter) n.2
      match a.1 with
      | .error err =>
        ⟨[.getPermalink msg.Channel msg.Timestamp (.ok (some permalink)),
          .remindersAdd text (triggerTime n.1 r.RemindAfter) (.error err),
          .log (ascii "failed to set reminder: " ++ err)], a.2, false⟩
      | .ok _ =>
        let e := env.PostEphemeral msg.Channel (ackText env r) msg.User a.2
        ⟨[.getPermalink msg.Channel msg.Timestamp (.ok (some permalink)),
          .remindersAdd text (triggerTime n.1 r.RemindAfter) (.ok ()),
          .log (ascii "set reminder after " ++ env.durationString r.RemindAfter ++
                ascii ": " ++ env.quote msg.Text),
          .postEphemeral msg.Channel (ackText env r) msg.User e.1], e.2, false⟩

/-- Lines 87-111: `for _, r := range conf.Rules`. The pattern test of line 88
panics on a rule whose pattern pointer is nil. -/
def handleRules {σ : Type} (env : Env σ) (msg : MessageEvent) : List rule → σ → Result σ
  | [], w => ⟨[], w, false⟩
  | r :: rs, w =>
    match r.Pattern.MatchString msg.Text with
    | none => ⟨[], w, true⟩
    | some matched =>
      if !matched then handleRules env msg rs w
      else (ruleBody env msg r w).andThen (handleRules env msg rs)

/-- Lines 78-111: the body of the event loop for one event. -/
def handleEvent {σ : Type} (env : Env σ) (conf : config) (authUserID : GoString)
    (e : Event) (w : σ) : Result σ :=
  if e.Typ ≠ EventType.MessageType then ⟨[], w, false⟩
  else
    match e.Data with
    | .other => ⟨[], w, true⟩
    | .message msg =>
      if msg.User ≠ authUserID then ⟨[], w, false⟩
      else handleRules env msg conf.Rules w

/-- Lines 77-112: `for e := range rtmCli.Events()` over the events delivered. -/
def run {σ : Type} (env : Env σ) (conf : config) (authUserID : GoString) :
    List Event → σ → Result σ
  | [], w => ⟨[], w, false⟩
  | e :: es, w => (handleEvent env conf authUserID e w).andThen (run env conf authUserID es)

/-! ## The Matches of the specification -/

/-- The Rule Matcher after the words of the specification (section 4.3): the
rules whose pattern matches the event text, every rule tested, in rule order. -/
def matchesOf (rules : List rule) (msg : MessageEvent) : List rule :=
  rules.filter (fun r => r.Pattern.MatchString msg.Text = some true)

/-! ## The stages of the loop body

The remote calls of one pass through lines 92-110, each with the world the
previous stage left. They name the outcomes that the statements speak about. -/

/-- Line 92: the permalink resolution for the message. -/
def Env.resolve {σ : Type} (env : Env σ) (msg : MessageEvent) (w : σ) :
    Except GoString (Option GoString) × σ :=
  env.GetPermalink msg.Channel msg.Timestamp w

/-- Line 102: the reading of `time.Now()`, taken after the permalink resolution. -/
def Env.readClock {σ : Type} (env : Env σ) (msg : MessageEvent) (w : σ) : Time × σ :=
  env.Now (env.resolve msg w).2

/-- Line 102: the reminder registration, for the permalink `p` and the channel URL `u`. -/
def Env.register {σ : Type} (env : Env σ) (msg : MessageEvent) (r : rule) (w : σ)
    (p u : GoString) : Except GoString Unit × σ :=
  env.RemindersAdd (displayText p msg.Text u msg.Channel)
    (triggerTime (env.readClock msg w).1 r.RemindAfter) (env.readClock msg w).2

/-- Line 110: the ephemeral post, made after the registration. -/
def Env.acknowledge {σ : Type} (env : Env σ) (msg : MessageEvent) (r : rule) (w : σ)
    (p u : GoString) : Except GoString Unit × σ :=
  env.PostEphemeral msg.Channel (ackText env r) msg.User (env.register msg r w p u).2

/-! ## Observations on a trace -/

/-- A permalink resolution, whatever its outcome. -/
def Action.isGetPermalink : Action → Bool
  | .getPermalink _ _ _ => true
  | _ => false

/-- A reminder registration, whatever its outcome. -/
def Action.isRemindersAdd : Action → Bool
  | .remindersAdd _ _ _ => true
  | _ => false

/-- A reminder registration that succeeded. -/
def Action.isRegistered : Action → Bool
  | .remindersAdd _ _ (.ok _) => true
  | _ => false

/-- An ephemeral post (the acknowledgment), whatever its outcome. -/
def Action.isPostEphemeral : Action → Bool
  | .postEphemeral _ _ _ _ => true
  | _ => false

/-- A line given to `log.Printf`. -/
def Action.isLog : Action → Bool
  | .log _ => true
  | _ => false

/-- A remote call: everything but a log line. -/
def Action.isRemoteCall (a : Action) : Bool := !a.isLog

/-- The remote calls of a trace, in order. -/
def remoteCalls (t : List Action) : List Action := t.filter Action.isRemoteCall

/-- The times of the reminder registrations of a trace, in order. -/
def registeredTimes (t : List Action) : List Int :=
  t.filterMap (fun a =>
    match a with
    | .remindersAdd _ time _ => some time
    | _ => none)

/-! ## A scripted world

The outcomes of the remote calls and the clock readings are fixed in advance
and handed out one after the other, whatever the arguments of the call. Every
course that one run of the loop can take is the course of some script. -/

/-- The outcomes still to come, per kind of call. -/
structure Script where
  perms : List (Except GoString (Option GoString))
  adds : List (Except GoString Unit)
  posts : List (Except GoString Unit)
  clock : List Time
  deriving DecidableEq

/-- The environment that answers from a script. A call whose script has run
out fails with the error `EOF`; the clock then reads the epoch. -/
def scriptEnv (durationString : Int → GoString) (quote : GoString → GoString) : Env Script where
  GetPermalink := fun _ _ s =>
    match s.perms with
    | [] => (.error (ascii "EOF"), s)
    | p :: ps => (p, { s with perms := ps })
  RemindersAdd := fun _ _ s =>
    match s.adds with
    | [] => (.error (ascii "EOF"), s)
    | a :: as => (a, { s with adds := as })
  PostEphemeral := fun _ _ _ s =>
    match s.posts with
    | [] => (.error (ascii "EOF"), s)
    | a :: as => (a, { s with posts := as })
  Now := fun s =>
    match s.clock with
    | [] => (⟨0, 0, by decide⟩, s)
    | t :: ts => (t, { s with clock := ts })
  durationString := durationString
  quote := quote

/-! ## Sample values -/

/-- Decimal digits of a number, as `strconv.Itoa` prints them. -/
def decimal (n : Nat) : GoString :=
  (Nat.toDigits 10 n).map (fun c => Fin.ofNat c.toNat)

/-- What `time.Duration.String` prints for a duration of whole seconds:
`1h0m0s`, `5m30s`, `45s`, `0s`, with a leading `-` below zero. Fractions of a
second are dropped here; the library prints them. -/
def secondsDurationString (d : Int) : GoString :=
  let u := d.natAbs / 1000000000
  (if d < 0 then ascii "-" else []) ++
  (if 0 < u / 3600 then decimal (u / 3600) ++ ascii "h" else []) ++
  (if 0 < u / 60 then decimal (u / 60 % 60) ++ ascii "m" else []) ++
  decimal (u % 60) ++ ascii "s"

/-- What `%q` prints for a text of printable ASCII without `"` and `\`:
the text between double quotes. -/
def plainQuote (s : GoString) : GoString := ascii "\"" ++ s ++ ascii "\""

/-- The sample scripted environment. -/
def sampleEnv : Env Script := scriptEnv secondsDurationString plainQuote

/-- The pattern that `UnmarshalYAML` stores for a literal without
metacharacters: `MatchString` tells whether the literal occurs in the text. -/
def literalPattern (p : GoString) : regexpString := ⟨some ⟨fun s => decide (p <:+: s)⟩⟩

/-- One hour, in nanoseconds. -/
def Hour : Int := 3600 * Second

/-- The rule of the scenarios of the specification: `SECRET`, one hour. -/
def secretRule : rule := ⟨literalPattern (ascii "SECRET"), Hour⟩

/-- A second rule that matches the same message: `xyz`, two hours. -/
def xyzRule : rule := ⟨literalPattern (ascii "xyz"), 2 * Hour⟩

/-- A rule as the configuration line `remind_after: -1h` decodes: the
pattern `SECRET`, minus one hour. -/
def backdatedRule : rule := ⟨literalPattern (ascii "SECRET"), -Hour⟩

/-- A rule as the configuration entry `- remind_after: 1h` decodes, with no
`pattern` key: the pattern pointer is nil. -/
def patternlessRule : rule := ⟨⟨none⟩, Hour⟩

/-- The user id of the authenticated session in the samples. -/
def sampleUser : GoString := ascii "U1"

/-- The message of the scenarios of the specification. -/
def sampleMsg : MessageEvent :=
  ⟨sampleUser, ascii "printed SECRET=xyz", ascii "C1", ascii "123.456"⟩

/-- A permalink as Slack hands it out. -/
def samplePermalink : GoString := ascii "https://x.slack.com/archives/C1/p123456"

/-- A clock reading: 1 700 000 000.25 s after the epoch. -/
def sampleNow : Time := ⟨1700000000, 250000000, by decide⟩


/-! ## Lemmas on the string operations -/

theorem lastIndexByteLoop_absent (s : GoString) (c : Byte) (n : Nat)
    (h : ∀ i, i < n → s[i]? ≠ some c) : lastIndexByteLoop s c n = -1 := by
  induction n with
  | zero => rfl
  | succ k ih =>
    have hk : s[k]? ≠ some c := h k (Nat.lt_succ_self k)
    simp only [lastIndexByteLoop, hk, if_false]
    exact ih (fun i hi => h i (Nat.lt_succ_of_lt hi))

theorem lastIndexByteLoop_found (s : GoString) (c : Byte) (i n : Nat) (hin : i < n)
    (hi : s[i]? = some c) (hlast : ∀ j, i < j → j < n → s[j]? ≠ some c) :
    lastIndexByteLoop s c n = (i : Int) := by
  induction n with
  | zero => omega
  | succ k ih =>
    by_cases hik : i = k
    · subst hik
      simp [lastIndexByteLoop, hi]
    · have hk : s[k]? ≠ some c := hlast k (by omega) (Nat.lt_succ_self k)
      simp only [lastIndexByteLoop, hk, if_false]
      exact ih (by omega) (fun j h1 h2 => hlast j h1 (Nat.lt_succ_of_lt h2))

theorem LastIndex_append_cons (a b : GoString) (c : Byte) (hb : c ∉ b) :
    LastIndex (a ++ c :: b) c = (a.length : Int) := by
  unfold LastIndex
  apply lastIndexByteLoop_found
  · simp
  · rw [List.getElem?_append_right (Nat.le_refl _)]
    simp
  · intro j h1 h2 hj
    rw [List.getElem?_append_right (by omega)] at hj
    obtain ⟨m, hm⟩ : ∃ m, j - a.length = m + 1 := ⟨j - a.length - 1, by omega⟩
    rw [hm, List.getElem?_cons_succ] at hj
    exact hb (List.getElem?_mem hj)

theorem LastIndex_absent (s : GoString) (c : Byte) (h : c ∉ s) : LastIndex s c = -1 := by
  unfold LastIndex
  apply lastIndexByteLoop_absent
  intro i _ hi
  exact h (List.getElem?_mem hi)

theorem exists_last_occurrence (c : Byte) (s : GoString) (h : c ∈ s) :
    ∃ a b, s = a ++ c :: b ∧ c ∉ b := by
  induction s with
  | nil => simp at h
  | cons x xs ih =>
    by_cases hxs : c ∈ xs
    · obtain ⟨a, b, hab, hb⟩ := ih hxs
      exact ⟨x :: a, b, by simp [hab], hb⟩
    · have hx : c = x := by
        rcases List.mem_cons.mp h with h1 | h1
        · exact h1
        · exact absurd h1 hxs
      exact ⟨[], xs, by simp [hx], hxs⟩

theorem channelURL_append_cons (a b : GoString) (hb : slash ∉ b) :
    channelURL (a ++ slash :: b) = some a := by
  unfold channelURL sliceTo
  rw [LastIndex_append_cons a b slash hb]
  have h : (0 : Int) ≤ (a.length : Int) ∧ (a.length : Int) ≤ ((a ++ slash :: b).length : Int) := by
    constructor
    · exact Int.ofNat_nonneg _
    · simp only [List.length_append, List.length_cons]; omega
  simp only [h, and_self, if_true, Int.toNat_ofNat, List.take_left']

theorem channelURL_absent (s : GoString) (h : slash ∉ s) : channelURL s = none := by
  unfold channelURL sliceTo
  rw [LastIndex_absent s slash h]
  simp

/-! ## Lemmas on the clock arithmetic -/

theorem tdiv_tmod_facts (d : Int) :
    Second * Int.tdiv d Second + Int.tmod d Second = d ∧
      -Second < Int.tmod d Second ∧ Int.tmod d Second < Second ∧
      (0 ≤ d → 0 ≤ Int.tmod d Second) := by
  have hS : (0 : Int) < Second := by decide
  refine ⟨Int.tdiv_add_tmod d Second, ?_, Int.tmod_lt_of_pos d hS, ?_⟩
  · rcases d with n | n
    · have h1 : (0 : Int) ≤ Int.tmod (Int.ofNat n) Second :=
        Int.tmod_nonneg Second (Int.ofNat_nonneg n)
      have h2 : -Second < 0 := by decide
      omega
    · have h1 : Int.tmod (Int.negSucc n) Second = -(((n + 1) % 1000000000 : Nat) : Int) := rfl
      have h2 : (n + 1) % 1000000000 < 1000000000 := Nat.mod_lt _ (by decide)
      rw [h1]
      simp only [Second]
      omega
  · intro hd
    exact Int.tmod_nonneg Second hd

theorem triggerTime_eq (now : Time) (d : Int) :
    triggerTime now d =
      if (now.nsec : Int) + Int.tmod d Second ≥ Second then now.sec + (Int.tdiv d Second + 1)
      else if (now.nsec : Int) + Int.tmod d Second < 0 then now.sec + (Int.tdiv d Second - 1)
      else now.sec + Int.tdiv d Second := by
  unfold triggerTime Time.Unix Time.Add
  split_ifs <;> rfl

theorem triggerTime_floor (now : Time) (d : Int) :
    triggerTime now d = (now.nanos + d) / Second ∧
      0 ≤ now.nanos + d - triggerTime now d * Second ∧
      now.nanos + d - triggerTime now d * Second < Second := by
  obtain ⟨hsum, hlo, hhi, _⟩ := tdiv_tmod_facts d
  have hn := now.nsec_lt
  rw [triggerTime_eq]
  unfold Time.nanos
  generalize Int.tdiv d Second = q at *
  generalize Int.tmod d Second = m at *
  simp only [Second] at *
  split_ifs <;> omega

theorem triggerTime_mono (now : Time) (d : Int) (hd : 0 ≤ d) :
    now.Unix ≤ triggerTime now d := by
  obtain ⟨hsum, hlo, hhi, hnn⟩ := tdiv_tmod_facts d
  have hm := hnn hd
  have hn := now.nsec_lt
  rw [triggerTime_eq]
  unfold Time.Unix
  generalize Int.tdiv d Second = q at *
  generalize Int.tmod d Second = m at *
  simp only [Second] at *
  split_ifs <;> omega

/-! ## Lemmas on sequencing -/

section Sequencing

variable {σ : Type}

theorem andThen_of_panicked (a : Result σ) (k : σ → Result σ) (h : a.panicked = true) :
    a.andThen k = a := by
  simp [Result.andThen, h]

theorem andThen_of_running (a : Result σ) (k : σ → Result σ) (h : a.panicked = false) :
    a.andThen k = ⟨a.trace ++ (k a.world).trace, (k a.world).world, (k a.world).panicked⟩ := by
  simp [Result.andThen, h]

theorem andThen_assoc (a : Result σ) (k l : σ → Result σ) :
    (a.andThen k).andThen l = a.andThen (fun w => (k w).andThen l) := by
  cases ha : a.panicked
  · cases hk : (k a.world).panicked
    · simp [Result.andThen, ha, hk]
    · simp [Result.andThen, ha, hk]
  · simp [Result.andThen, ha]

theorem andThen_pure (w : σ) (k : σ → Result σ) :
    (⟨[], w, false⟩ : Result σ).andThen k = k w := by
  simp [Result.andThen]

theorem handleRules_cons_of_match (env : Env σ) (msg : MessageEvent) (r : rule)
    (rs : List rule) (w : σ) (hr : r.Pattern.MatchString msg.Text = some true) :
    handleRules env msg (r :: rs) w = (ruleBody env msg r w).andThen (handleRules env msg rs) := by
  simp [handleRules, hr]

theorem handleRules_cons_of_no_match (env : Env σ) (msg : MessageEvent) (r : rule)
    (rs : List rule) (w : σ) (hr : r.Pattern.MatchString msg.Text = some false) :
    handleRules env msg (r :: rs) w = handleRules env msg rs w := by
  simp [handleRules, hr]

theorem handleRules_cons_of_nil_pattern (env : Env σ) (msg : MessageEvent) (r : rule)
    (rs : List rule) (w : σ) (hr : r.Pattern.MatchString msg.Text = none) :
    handleRules env msg (r :: rs) w = ⟨[], w, true⟩ := by
  simp [handleRules, hr]

/-- The pattern test of a rule has one of three outcomes. -/
theorem matchString_cases (r : rule) (s : GoString) :
    r.Pattern.MatchString s = none ∨ r.Pattern.MatchString s = some false ∨
      r.Pattern.MatchString s = some true := by
  rcases h : r.Pattern.MatchString s with _ | b
  · exact Or.inl rfl
  · cases b
    · exact Or.inr (Or.inl rfl)
    · exact Or.inr (Or.inr rfl)

theorem matchesOf_cons_of_match (r : rule) (rs : List rule) (msg : MessageEvent)
    (hr : r.Pattern.MatchString msg.Text = some true) :
    matchesOf (r :: rs) msg = r :: matchesOf rs msg := by
  simp [matchesOf, List.filter_cons, hr]

theorem matchesOf_cons_of_no_match (r : rule) (rs : List rule) (msg : MessageEvent)
    (hr : r.Pattern.MatchString msg.Text = some false) :
    matchesOf (r :: rs) msg = matchesOf rs msg := by
  simp [matchesOf, List.filter_cons, hr]

theorem handleRules_append (env : Env σ) (msg : MessageEvent) (l₁ l₂ : List rule) (w : σ) :
    handleRules env msg (l₁ ++ l₂) w =
      (handleRules env msg l₁ w).andThen (handleRules env msg l₂) := by
  induction l₁ generalizing w with
  | nil => simp [handleRules, andThen_pure]
  | cons r rs ih =>
    rcases matchString_cases r msg.Text with hr | hr | hr
    · rw [List.cons_append, handleRules_cons_of_nil_pattern env msg r _ w hr,
        handleRules_cons_of_nil_pattern env msg r _ w hr, andThen_of_panicked _ _ rfl]
    · rw [List.cons_append, handleRules_cons_of_no_match env msg r _ w hr,
        handleRules_cons_of_no_match env msg r _ w hr]
      exact ih w
    · rw [List.cons_append, handleRules_cons_of_match env msg r _ w hr,
        handleRules_cons_of_match env msg r _ w hr, andThen_assoc]
      congr 1
      funext w1
      exact ih w1

theorem handleEvent_of_monitored (env : Env σ) (conf : config) (msg : MessageEvent) (w : σ) :
    handleEvent env conf msg.User ⟨EventType.MessageType, EventData.message msg⟩ w =
      handleRules env msg conf.Rules w := by
  simp [handleEvent]

end Sequencing

/-! ## The five courses of the loop body -/

section Body

variable {σ : Type} (env : Env σ) (msg : MessageEvent) (r : rule) (w : σ)

theorem ruleBody_permalink_failed (err : GoString) (h : (env.resolve msg w).1 = .error err) :
    ruleBody env msg r w =
      ⟨[.getPermalink msg.Channel msg.Timestamp (.error err),
        .log (ascii "failed to get permalink: " ++ err)],
       (env.resolve msg w).2, false⟩ := by
  simp only [Env.resolve] at h
  simp [ruleBody, Env.resolve, h]

theorem ruleBody_nil_response (h : (env.resolve msg w).1 = .ok none) :
    ruleBody env msg r w =
      ⟨[.getPermalink msg.Channel msg.Timestamp (.ok none)], (env.resolve msg w).2, true⟩ := by
  simp only [Env.resolve] at h
  simp [ruleBody, Env.resolve, h]

theorem ruleBody_slice_panics (p : GoString) (h : (env.resolve msg w).1 = .ok (some p))
    (hu : channelURL p = none) :
    ruleBody env msg r w =
      ⟨[.getPermalink msg.Channel msg.Timestamp (.ok (some p))],
        (env.resolve msg w).2, true⟩ := by
  simp only [Env.resolve] at h
  simp [ruleBody, Env.resolve, h, hu]

theorem ruleBody_add_failed (p u err : GoString) (h : (env.resolve msg w).1 = .ok (some p))
    (hu : channelURL p = some u) (ha : (env.register msg r w p u).1 = .error err) :
    ruleBody env msg r w =
      ⟨[.getPermalink msg.Channel msg.Timestamp (.ok (some p)),
        .remindersAdd (displayText p msg.Text u msg.Channel)
          (triggerTime (env.readClock msg w).1 r.RemindAfter) (.error err),
        .log (ascii "failed to set reminder: " ++ err)],
       (env.register msg r w p u).2, false⟩ := by
  simp only [Env.resolve, Env.register, Env.readClock] at h ha
  simp [ruleBody, Env.resolve, Env.register, Env.readClock, h, hu, ha]

theorem ruleBody_add_ok (p u : GoString) (h : (env.resolve msg w).1 = .ok (some p))
    (hu : channelURL p = some u) (ha : (env.register msg r w p u).1 = .ok ()) :
    ruleBody env msg r w =
      ⟨[.getPermalink msg.Channel msg.Timestamp (.ok (some p)),
        .remindersAdd (displayText p msg.Text u msg.Channel)
          (triggerTime (env.readClock msg w).1 r.RemindAfter) (.ok ()),
        .log (ascii "set reminder after " ++ env.durationString r.RemindAfter ++
              ascii ": " ++ env.quote msg.Text),
        .postEphemeral msg.Channel (ackText env r) msg.User (env.acknowledge msg r w p u).1],
       (env.acknowledge msg r w p u).2, false⟩ := by
  simp only [Env.resolve, Env.register, Env.readClock] at h ha
  simp [ruleBody, Env.resolve, Env.register, Env.readClock, Env.acknowledge, h, hu, ha]

/-- The loop body takes one of its five courses. -/
theorem ruleBody_cases :
    ((env.resolve msg w).1 = .ok none ∧
      ruleBody env msg r w =
        ⟨[.getPermalink msg.Channel msg.Timestamp (.ok none)], (env.resolve msg w).2, true⟩) ∨
    (∃ err, (env.resolve msg w).1 = .error err ∧
      ruleBody env msg r w =
        ⟨[.getPermalink msg.Channel msg.Timestamp (.error err),
          .log (ascii "failed to get permalink: " ++ err)],
         (env.resolve msg w).2, false⟩) ∨
    (∃ p, (env.resolve msg w).1 = .ok (some p) ∧ channelURL p = none ∧
      ruleBody env msg r w =
        ⟨[.getPermalink msg.Channel msg.Timestamp (.ok (some p))], (env.resolve msg w).2, true⟩) ∨
    (∃ p u err, (env.resolve msg w).1 = .ok (some p) ∧ channelURL p = some u ∧
      (env.register msg r w p u).1 = .error err ∧
      ruleBody env msg r w =
        ⟨[.getPermalink msg.Channel msg.Timestamp (.ok (some p)),
          .remindersAdd (displayText p msg.Text u msg.Channel)
            (triggerTime (env.readClock msg w).1 r.RemindAfter) (.error err),
          .log (ascii "failed to set reminder: " ++ err)],
         (env.register msg r w p u).2, false⟩) ∨
    (∃ p u, (env.resolve msg w).1 = .ok (some p) ∧ channelURL p = some u ∧
      (env.register msg r w p u).1 = .ok () ∧
      ruleBody env msg r w =
        ⟨[.getPermalink msg.Channel msg.Timestamp (.ok (some p)),
          .remindersAdd (displayText p msg.Text u msg.Channel)
            (triggerTime (env.readClock msg w).1 r.RemindAfter) (.ok ()),
          .log (ascii "set reminder after " ++ env.durationString r.RemindAfter ++
                ascii ": " ++ env.quote msg.Text),
          .postEphemeral msg.Channel (ackText env r) msg.User (env.acknowledge msg r w p u).1],
         (env.acknowledge msg r w p u).2, false⟩) := by
  cases h : (env.resolve msg w).1 with
  | error err => exact Or.inr (Or.inl ⟨err, rfl, ruleBody_permalink_failed env msg r w err h⟩)
  | ok o =>
    cases o with
    | none => exact Or.inl ⟨rfl, ruleBody_nil_response env msg r w h⟩
    | some p =>
      cases hu : channelURL p with
      | none =>
        exact Or.inr (Or.inr (Or.inl ⟨p, rfl, hu, ruleBody_slice_panics env msg r w p h hu⟩))
      | some u =>
        cases ha : (env.register msg r w p u).1 with
        | error err =>
          exact Or.inr (Or.inr (Or.inr (Or.inl
            ⟨p, u, err, rfl, hu, ha, ruleBody_add_failed env msg r w p u err h hu ha⟩)))
        | ok x =>
          cases x
          exact Or.inr (Or.inr (Or.inr (Or.inr
            ⟨p, u, rfl, hu, ha, ruleBody_add_ok env msg r w p u h hu ha⟩)))

end Body

/-! ## Lemmas on the traces -/

section Traces

variable {σ : Type} (env : Env σ) (msg : MessageEvent)

/-- Every step of the handling of the rules is a step of the loop body of one
rule that matches the text. -/
theorem mem_handleRules_trace (rules : List rule) (w : σ) (a : Action)
    (hmem : a ∈ (handleRules env msg rules w).trace) :
    ∃ r ∈ rules, r.Pattern.MatchString msg.Text = some true ∧
      ∃ w1, a ∈ (ruleBody env msg r w1).trace := by
  induction rules generalizing w with
  | nil => simp [handleRules] at hmem
  | cons r rs ih =>
    rcases matchString_cases r msg.Text with hr | hr | hr
    · rw [handleRules_cons_of_nil_pattern env msg r rs w hr] at hmem
      simp at hmem
    · rw [handleRules_cons_of_no_match env msg r rs w hr] at hmem
      obtain ⟨r1, hr1, hm1, h1⟩ := ih w hmem
      exact ⟨r1, List.mem_cons_of_mem _ hr1, hm1, h1⟩
    · rw [handleRules_cons_of_match env msg r rs w hr] at hmem
      cases hp : (ruleBody env msg r w).panicked
      · rw [andThen_of_running _ _ hp] at hmem
        rcases List.mem_append.mp hmem with h1 | h1
        · exact ⟨r, List.mem_cons_self _ _, hr, w, h1⟩
        · obtain ⟨r1, hr1, hm1, h2⟩ := ih _ h1
          exact ⟨r1, List.mem_cons_of_mem _ hr1, hm1, h2⟩
      · rw [andThen_of_panicked _ _ hp] at hmem
        exact ⟨r, List.mem_cons_self _ _, hr, w, hmem⟩

theorem ruleBody_permalinkCalls (r : rule) (w : σ) :
    (ruleBody env msg r w).trace.countP Action.isGetPermalink = 1 := by
  rcases ruleBody_cases env msg r w with ⟨_, hb⟩ | ⟨err, _, hb⟩ | ⟨p, _, _, hb⟩ |
    ⟨p, u, err, _, _, _, hb⟩ | ⟨p, u, _, _, _, hb⟩ <;> rw [hb] <;> rfl

theorem ruleBody_posts_eq_registered (r : rule) (w : σ) :
    (ruleBody env msg r w).trace.countP Action.isPostEphemeral =
      (ruleBody env msg r w).trace.countP Action.isRegistered := by
  rcases ruleBody_cases env msg r w with ⟨_, hb⟩ | ⟨err, _, hb⟩ | ⟨p, _, _, hb⟩ |
    ⟨p, u, err, _, _, _, hb⟩ | ⟨p, u, _, _, _, hb⟩ <;> rw [hb] <;> rfl

theorem ruleBody_calls_at_most_once (r : rule) (w : σ) :
    (ruleBody env msg r w).trace.countP Action.isRemindersAdd ≤ 1 ∧
      (ruleBody env msg r w).trace.countP Action.isPostEphemeral ≤ 1 := by
  rcases ruleBody_cases env msg r w with ⟨_, hb⟩ | ⟨err, _, hb⟩ | ⟨p, _, _, hb⟩ |
    ⟨p, u, err, _, _, _, hb⟩ | ⟨p, u, _, _, _, hb⟩ <;> rw [hb] <;>
  simp [List.countP_cons, Action.isRemindersAdd, Action.isPostEphemeral]

/-- A reminder registration of the loop body is its second step, carries the
trigger time of the rule of the body, and the body does not panic. -/
theorem ruleBody_registration (r : rule) (w : σ) (i : Nat) (text : GoString) (t : Int)
    (res : Except GoString Unit)
    (h : (ruleBody env msg r w).trace[i]? = some (.remindersAdd text t res)) :
    i = 1 ∧ t = triggerTime (env.readClock msg w).1 r.RemindAfter ∧
      (ruleBody env msg r w).panicked = false := by
  rcases ruleBody_cases env msg r w with ⟨_, hb⟩ | ⟨err, _, hb⟩ | ⟨p, _, _, hb⟩ |
    ⟨p, u, err, _, _, _, hb⟩ | ⟨p, u, _, _, _, hb⟩ <;> rw [hb] at h ⊢ <;>
  · rcases i with _ | _ | _ | _ | i <;> simp at h
    try exact ⟨rfl, h.2.1.symm, rfl⟩

theorem ruleBody_mem_registration (r : rule) (w : σ) (text : GoString) (t : Int)
    (res : Except GoString Unit)
    (h : Action.remindersAdd text t res ∈ (ruleBody env msg r w).trace) :
    t = triggerTime (env.readClock msg w).1 r.RemindAfter := by
  obtain ⟨i, hi⟩ := List.getElem?_of_mem h
  exact (ruleBody_registration env msg r w i text t res hi).2.1

theorem handleRules_posts_eq_registered (rules : List rule) (w : σ) :
    (handleRules env msg rules w).trace.countP Action.isPostEphemeral =
      (handleRules env msg rules w).trace.countP Action.isRegistered := by
  induction rules generalizing w with
  | nil => rfl
  | cons r rs ih =>
    rcases matchString_cases r msg.Text with hr | hr | hr
    · rw [handleRules_cons_of_nil_pattern env msg r rs w hr]
      rfl
    · rw [handleRules_cons_of_no_match env msg r rs w hr]
      exact ih w
    · rw [handleRules_cons_of_match env msg r rs w hr]
      cases hp : (ruleBody env msg r w).panicked
      · rw [andThen_of_running _ _ hp]
        simp only [List.countP_append, ruleBody_posts_eq_registered, ih]
      · rw [andThen_of_panicked _ _ hp, ruleBody_posts_eq_registered]

/-- On a run of the rule loop that does not panic, the permalink resolutions
are as many as the rules that match. -/
theorem handleRules_permalinkCalls_of_running (rules : List rule) (w : σ)
    (hrun : (handleRules env msg rules w).panicked = false) :
    (handleRules env msg rules w).trace.countP Action.isGetPermalink =
      (matchesOf rules msg).length := by
  induction rules generalizing w with
  | nil => rfl
  | cons r rs ih =>
    rcases matchString_cases r msg.Text with hr | hr | hr
    · rw [handleRules_cons_of_nil_pattern env msg r rs w hr] at hrun
      cases hrun
    · rw [handleRules_cons_of_no_match env msg r rs w hr] at hrun ⊢
      rw [matchesOf_cons_of_no_match r rs msg hr]
      exact ih w hrun
    · rw [handleRules_cons_of_match env msg r rs w hr] at hrun ⊢
      rw [matchesOf_cons_of_match r rs msg hr]
      cases hp : (ruleBody env msg r w).panicked
      · rw [andThen_of_running _ _ hp] at hrun ⊢
        simp only [List.countP_append, ruleBody_permalinkCalls, List.length_cons]
        have := ih (ruleBody env msg r w).world hrun
        omega
      · rw [andThen_of_panicked _ _ hp] at hrun
        rw [hp] at hrun
        cases hrun

/-- Every reminder registration in the trace of the rule loop is the second
step of the body of one rule of the list, a rule that matches and that the
loop reached without a panic, and carries the trigger time of that rule. -/
theorem handleRules_registration (rules : List rule) (w : σ) (i : Nat) (text : GoString)
    (t : Int) (res : Except GoString Unit)
    (h : (handleRules env msg rules w).trace[i]? = some (.remindersAdd text t res)) :
    ∃ first r rest, rules = first ++ r :: rest ∧
      r.Pattern.MatchString msg.Text = some true ∧
      (handleRules env msg first w).panicked = false ∧
      i = (handleRules env msg first w).trace.length + 1 ∧
      t = triggerTime (env.readClock msg (handleRules env msg first w).world).1
        r.RemindAfter := by
  induction rules generalizing w i with
  | nil => simp [handleRules] at h
  | cons r rs ih =>
    rcases matchString_cases r msg.Text with hr | hr | hr
    · rw [handleRules_cons_of_nil_pattern env msg r rs w hr] at h
      simp at h
    · rw [handleRules_cons_of_no_match env msg r rs w hr] at h
      obtain ⟨first, r1, rest, hsplit, hm, hrun, hi, ht⟩ := ih w i h
      refine ⟨r :: first, r1, rest, by rw [hsplit]; rfl, hm, ?_, ?_, ?_⟩ <;>
        rw [handleRules_cons_of_no_match env msg r first w hr]
      · exact hrun
      · exact hi
      · exact ht
    · rw [handleRules_cons_of_match env msg r rs w hr] at h
      cases hp : (ruleBody env msg r w).panicked
      · rw [andThen_of_running _ _ hp] at h
        simp only at h
        by_cases hlt : i < (ruleBody env msg r w).trace.length
        · rw [List.getElem?_append_left hlt] at h
          obtain ⟨hi, ht, _⟩ := ruleBody_registration env msg r w i text t res h
          exact ⟨[], r, rs, rfl, hr, rfl, by simpa [handleRules] using hi,
            by simpa [handleRules] using ht⟩
        · rw [List.getElem?_append_right (Nat.le_of_not_lt hlt)] at h
          obtain ⟨first, r1, rest, hsplit, hm, hrun, hi, ht⟩ := ih _ _ h
          refine ⟨r :: first, r1, rest, by rw [hsplit]; rfl, hm, ?_, ?_, ?_⟩ <;>
            rw [handleRules_cons_of_match env msg r first w hr, andThen_of_running _ _ hp]
          · exact hrun
          · simp only [List.length_append]
            omega
          · exact ht
      · rw [andThen_of_panicked _ _ hp] at h
        have := (ruleBody_registration env msg r w i text t res h).2.2
        rw [hp] at this
        cases this

/-- The Match of a rule that the loop reaches without a panic, whose permalink
resolves and has a channel URL, registers its reminder as the second step
after the steps of the rules before it, with the trigger time of that rule. -/
theorem handleRules_registration_at (first rest : List rule) (r : rule) (w : σ)
    (p u : GoString) (hrun : (handleRules env msg first w).panicked = false)
    (hr : r.Pattern.MatchString msg.Text = some true)
    (hp : (env.resolve msg (handleRules env msg first w).world).1 = .ok (some p))
    (hu : channelURL p = some u) :
    (handleRules env msg (first ++ r :: rest) w).trace[
        (handleRules env msg first w).trace.length + 1]? =
      some (.remindersAdd (displayText p msg.Text u msg.Channel)
        (triggerTime (env.readClock msg (handleRules env msg first w).world).1 r.RemindAfter)
        (env.register msg r (handleRules env msg first w).world p u).1) := by
  rw [handleRules_append, andThen_of_running _ _ hrun,
    handleRules_cons_of_match env msg r rest _ hr]
  simp only
  rw [List.getElem?_append_right (Nat.le_add_right _ _)]
  simp only [Nat.add_sub_cancel_left]
  cases ha : (env.register msg r (handleRules env msg first w).world p u).1 with
  | error err =>
    rw [ruleBody_add_failed env msg r _ p u err hp hu ha, andThen_of_running _ _ rfl]
    rfl
  | ok x =>
    cases x
    rw [ruleBody_add_ok env msg r _ p u hp hu ha, andThen_of_running _ _ rfl]
    rfl

end Traces

/-! ## C2: the message-type and authorship filters -/

/-- C2. An event that is not of message type, or whose author is not the
monitored identity, is skipped whatever the rules and whatever its text: the
handling makes no remote call and writes no log line (the trace is empty), it
leaves the world as it was and does not fail, and the loop goes on with the
events that follow as if the skipped event had not been delivered. -/
theorem C2_filtered_event_is_skipped {σ : Type} (env : Env σ) (conf : config)
    (authUserID : GoString) (e : Event) (later : List Event) (w : σ)
    (h : e.Typ ≠ EventType.MessageType ∨
      ∃ msg, e.Data = EventData.message msg ∧ msg.User ≠ authUserID) :
    handleEvent env conf authUserID e w = ⟨[], w, false⟩ ∧
      run env conf authUserID (e :: later) w = run env conf authUserID later w := by
  have h1 : handleEvent env conf authUserID e w = ⟨[], w, false⟩ := by
    rcases h with h | ⟨msg, hd, hu⟩
    · simp [handleEvent, h]
    · by_cases ht : e.Typ = EventType.MessageType
      · simp [handleEvent, ht, hd, hu]
      · simp [handleEvent, ht]
  exact ⟨h1, by simp [run, h1, andThen_pure]⟩

/-- C2 at a message of another user whose text matches the rule `SECRET`. -/
theorem C2_filtered_event_is_skipped_witness :
    handleEvent sampleEnv ⟨[secretRule]⟩ sampleUser
        ⟨EventType.MessageType, EventData.message { sampleMsg with User := ascii "U2" }⟩
        ⟨[.ok (some samplePermalink)], [.ok ()], [.ok ()], [sampleNow]⟩ =
      ⟨[], ⟨[.ok (some samplePermalink)], [.ok ()], [.ok ()], [sampleNow]⟩, false⟩ ∧
    run sampleEnv ⟨[secretRule]⟩ sampleUser
        [⟨EventType.MessageType, EventData.message { sampleMsg with User := ascii "U2" }⟩]
        ⟨[.ok (some samplePermalink)], [.ok ()], [.ok ()], [sampleNow]⟩ =
      run sampleEnv ⟨[secretRule]⟩ sampleUser []
        ⟨[.ok (some samplePermalink)], [.ok ()], [.ok ()], [sampleNow]⟩ :=
  C2_filtered_event_is_skipped sampleEnv ⟨[secretRule]⟩ sampleUser
    ⟨EventType.MessageType, EventData.message { sampleMsg with User := ascii "U2" }⟩ []
    ⟨[.ok (some samplePermalink)], [.ok ()], [.ok ()], [sampleNow]⟩
    (Or.inr ⟨{ sampleMsg with User := ascii "U2" }, rfl, by decide⟩)

/-! ## C4: the channel URL -/

/-- C4. For a permalink `a ++ "/" ++ b` in which `b` has no `'/'`, the slice
of line 99 is defined and the channel URL is exactly `a`. -/
theorem C4_channelURL_cuts_at_last_slash (a b : GoString) (hb : slash ∉ b) :
    channelURL (a ++ ascii "/" ++ b) = some a := by
  have h : a ++ ascii "/" ++ b = a ++ slash :: b := by
    simp [show ascii "/" = [slash] from rfl]
  rw [h]
  exact channelURL_append_cons a b hb

/-- C4 at the permalink `https://x.slack.com/archives/C1/p123456`. -/
theorem C4_channelURL_cuts_at_last_slash_witness :
    slash ∉ ascii "p123456" ∧
      channelURL (ascii "https://x.slack.com/archives/C1" ++ ascii "/" ++ ascii "p123456") =
        some (ascii "https://x.slack.com/archives/C1") :=
  ⟨by decide,
    C4_channelURL_cuts_at_last_slash (ascii "https://x.slack.com/archives/C1")
      (ascii "p123456") (by decide)⟩

/-! ## C10: when the truncation is defined -/

/-- C10. The slice of line 99 is defined exactly when the permalink has a
`'/'`. With one, the bound `LastIndex` is an index below the length and the
channel URL is the permalink cut there, a strictly shorter initial segment.
With none (the empty permalink included) `LastIndex` is `-1` and the slice is
out of range; when that permalink comes back for a matching rule that the
loop reaches, the run ends in a panic right after the permalink call: the
rules after it and the events after this one are not handled. -/
theorem C10_truncation_defined_iff_slash {σ : Type} (env : Env σ) (msg : MessageEvent)
    (first rest : List rule) (r : rule) (later : List Event) (w : σ) (p : GoString) :
    ((channelURL p).isSome = true ↔ slash ∈ p) ∧
    (slash ∈ p →
      0 ≤ LastIndex p slash ∧ LastIndex p slash < (p.length : Int) ∧
      channelURL p = some (p.take (LastIndex p slash).toNat) ∧
      p.take (LastIndex p slash).toNat <+: p ∧
      (p.take (LastIndex p slash).toNat).length < p.length) ∧
    (slash ∉ p →
      LastIndex p slash = -1 ∧ channelURL p = none ∧
      (r.Pattern.MatchString msg.Text = some true →
        (handleRules env msg first w).panicked = false →
        (env.resolve msg (handleRules env msg first w).world).1 = .ok (some p) →
        run env ⟨first ++ r :: rest⟩ msg.User
            (⟨EventType.MessageType, EventData.message msg⟩ :: later) w =
          ⟨(handleRules env msg first w).trace ++
              [.getPermalink msg.Channel msg.Timestamp (.ok (some p))],
            (env.resolve msg (handleRules env msg first w).world).2, true⟩)) := by
  have hin : slash ∈ p →
      0 ≤ LastIndex p slash ∧ LastIndex p slash < (p.length : Int) ∧
      channelURL p = some (p.take (LastIndex p slash).toNat) ∧
      p.take (LastIndex p slash).toNat <+: p ∧
      (p.take (LastIndex p slash).toNat).length < p.length := by
    intro hs
    obtain ⟨a, b, hab, hb⟩ := exists_last_occurrence slash p hs
    subst hab
    have hu := channelURL_append_cons a b hb
    rw [LastIndex_append_cons a b slash hb]
    refine ⟨Int.ofNat_nonneg _, ?_, ?_, ?_, ?_⟩
    · simp only [List.length_append, List.length_cons]; omega
    · simpa using hu
    · simp
    · simp
  have hout : slash ∉ p → LastIndex p slash = -1 ∧ channelURL p = none :=
    fun hs => ⟨LastIndex_absent p slash hs, channelURL_absent p hs⟩
  refine ⟨?_, hin, ?_⟩
  · constructor
    · intro hsome
      by_contra hs
      rw [(hout hs).2] at hsome
      simp at hsome
    · intro hs
      rw [(hin hs).2.2.1]
      rfl
  · intro hs
    refine ⟨(hout hs).1, (hout hs).2, ?_⟩
    intro hr hfirst hres
    have hbody := ruleBody_slice_panics env msg r (handleRules env msg first w).world p hres
      (hout hs).2
    have hrules : handleRules env msg (first ++ r :: rest) w =
        ⟨(handleRules env msg first w).trace ++
            [.getPermalink msg.Channel msg.Timestamp (.ok (some p))],
          (env.resolve msg (handleRules env msg first w).world).2, true⟩ := by
      rw [handleRules_append, andThen_of_running _ _ hfirst,
        handleRules_cons_of_match env msg r rest _ hr, hbody,
        andThen_of_panicked _ _ rfl]
    simp only [run]
    rw [handleEvent_of_monitored, hrules, andThen_of_panicked _ _ rfl]

/-- C10 at the permalink `nopath`, returned for the first of two matching
rules and followed by a second event: one permalink call, then the panic. -/
theorem C10_truncation_defined_iff_slash_witness :
    ((channelURL samplePermalink).isSome = true ↔ slash ∈ samplePermalink) ∧
    LastIndex (ascii "nopath") slash = -1 ∧ channelURL (ascii "nopath") = none ∧
    run sampleEnv ⟨[] ++ secretRule :: [xyzRule]⟩ sampleMsg.User
        (⟨EventType.MessageType, EventData.message sampleMsg⟩ ::
          [⟨EventType.MessageType, EventData.message sampleMsg⟩])
        ⟨[.ok (some (ascii "nopath")), .ok (some samplePermalink)], [.ok ()], [.ok ()], [sampleNow]⟩ =
      ⟨[] ++ [.getPermalink sampleMsg.Channel sampleMsg.Timestamp (.ok (some (ascii "nopath")))],
        ⟨[.ok (some samplePermalink)], [.ok ()], [.ok ()], [sampleNow]⟩, true⟩ :=
  ⟨(C10_truncation_defined_iff_slash sampleEnv sampleMsg [] [xyzRule] secretRule [] 
      ⟨[], [], [], []⟩ samplePermalink).1,
    ((C10_truncation_defined_iff_slash sampleEnv sampleMsg [] [xyzRule] secretRule
      [⟨EventType.MessageType, EventData.message sampleMsg⟩]
      ⟨[.ok (some (ascii "nopath")), .ok (some samplePermalink)], [.ok ()], [.ok ()], [sampleNow]⟩
      (ascii "nopath")).2.2 (by decide)).1,
    ((C10_truncation_defined_iff_slash sampleEnv sampleMsg [] [xyzRule] secretRule
      [⟨EventType.MessageType, EventData.message sampleMsg⟩]
      ⟨[.ok (some (ascii "nopath")), .ok (some samplePermalink)], [.ok ()], [.ok ()], [sampleNow]⟩
      (ascii "nopath")).2.2 (by decide)).2.1,
    ((C10_truncation_defined_iff_slash sampleEnv sampleMsg [] [xyzRule] secretRule
      [⟨EventType.MessageType, EventData.message sampleMsg⟩]
      ⟨[.ok (some (ascii "nopath")), .ok (some samplePermalink)], [.ok ()], [.ok ()], [sampleNow]⟩
      (ascii "nopath")).2.2 (by decide)).2.2 (by decide) rfl rfl⟩

/-! ## C7: the display text -/

/-- C7. For a Match whose permalink resolved to `p`, with channel URL `u`
derived from `p`, the loop body registers a reminder (the second step of its
trace) whose display text is exactly `<p|t> in <u|c>` for the message text `t`
and the channel id `c`; no other text is registered for the Match; and the
permalink, the message text, the channel URL and the channel id each occur in
that text as a contiguous run of bytes. -/
theorem C7_display_text {σ : Type} (env : Env σ) (msg : MessageEvent) (r : rule) (w : σ)
    (p u : GoString) (hp : (env.resolve msg w).1 = .ok (some p)) (hu : channelURL p = some u) :
    (ruleBody env msg r w).trace[1]? =
        some (.remindersAdd
          (ascii "<" ++ p ++ ascii "|" ++ msg.Text ++ ascii "> in <" ++ u ++ ascii "|" ++
            msg.Channel ++ ascii ">")
          (triggerTime (env.readClock msg w).1 r.RemindAfter) (env.register msg r w p u).1) ∧
      (∀ text t res, Action.remindersAdd text t res ∈ (ruleBody env msg r w).trace →
        text = ascii "<" ++ p ++ ascii "|" ++ msg.Text ++ ascii "> in <" ++ u ++ ascii "|" ++
            msg.Channel ++ ascii ">") ∧
      p <:+: displayText p msg.Text u msg.Channel ∧
      msg.Text <:+: displayText p msg.Text u msg.Channel ∧
      u <:+: displayText p msg.Text u msg.Channel ∧
      msg.Channel <:+: displayText p msg.Text u msg.Channel := by
  have hbody : (ruleBody env msg r w).trace[1]? =
        some (.remindersAdd (displayText p msg.Text u msg.Channel)
          (triggerTime (env.readClock msg w).1 r.RemindAfter) (env.register msg r w p u).1) ∧
      (∀ text t res, Action.remindersAdd text t res ∈ (ruleBody env msg r w).trace →
        text = displayText p msg.Text u msg.Channel) := by
    cases ha : (env.register msg r w p u).1 with
    | error err =>
      rw [ruleBody_add_failed env msg r w p u err hp hu ha]
      refine ⟨rfl, ?_⟩
      intro text t res hmem
      simp at hmem
      exact hmem.1
    | ok x =>
      cases x
      rw [ruleBody_add_ok env msg r w p u hp hu ha]
      refine ⟨rfl, ?_⟩
      intro text t res hmem
      simp at hmem
      exact hmem.1
  refine ⟨hbody.1, hbody.2, ?_, ?_, ?_, ?_⟩
  · exact ⟨ascii "<", ascii "|" ++ msg.Text ++ ascii "> in <" ++ u ++ ascii "|" ++
      msg.Channel ++ ascii ">", by simp [displayText]⟩
  · exact ⟨ascii "<" ++ p ++ ascii "|", ascii "> in <" ++ u ++ ascii "|" ++
      msg.Channel ++ ascii ">", by simp [displayText]⟩
  · exact ⟨ascii "<" ++ p ++ ascii "|" ++ msg.Text ++ ascii "> in <", ascii "|" ++
      msg.Channel ++ ascii ">", by simp [displayText]⟩
  · exact ⟨ascii "<" ++ p ++ ascii "|" ++ msg.Text ++ ascii "> in <" ++ u ++ ascii "|",
      ascii ">", by simp [displayText]⟩

/-- C7 at the scenario of the specification: the message `printed SECRET=xyz`
in channel `C1`, the permalink `https://x.slack.com/archives/C1/p123456`. -/
theorem C7_display_text_witness :
    (ruleBody sampleEnv sampleMsg secretRule
        ⟨[.ok (some samplePermalink)], [.ok ()], [.ok ()], [sampleNow]⟩).trace[1]? =
      some (.remindersAdd
        (ascii ("<https://x.slack.com/archives/C1/p123456|printed SECRET=xyz> in " ++
          "<https://x.slack.com/archives/C1|C1>"))
        1700003600 (.ok ())) :=
  (C7_display_text sampleEnv sampleMsg secretRule
    ⟨[.ok (some samplePermalink)], [.ok ()], [.ok ()], [sampleNow]⟩ samplePermalink
    (ascii "https://x.slack.com/archives/C1") rfl (by decide)).1

/-! ## C5: the trigger time -/

/-- C5. With `now` the clock reading that the loop body takes after the
permalink resolved and `d` the delay of the rule of the Match, every reminder
that the body registers carries the time `floor((now + d) / 10^9)` (instants
in nanoseconds since the epoch), which is at most the instant `now + d` and
less than one second before it; when the permalink resolved and has a channel
URL the registration with that time is made. In the loop over several rules
each Match is registered with its own delay: for a rule `r` of the list that
matches and that the loop reaches without a panic, whose permalink resolves
and has a channel URL, the step after its permalink call is the registration
with `floor((now + d) / 10^9)` for the delay `d` of `r` itself and the clock
reading `now` taken in the body of `r`; and every registration in the trace of
the loop is that step of one such rule, at that place, with the delay of that
rule. -/
theorem C5_trigger_time {σ : Type} (env : Env σ) (msg : MessageEvent) :
    (∀ (r : rule) (w : σ) text t res,
      Action.remindersAdd text t res ∈ (ruleBody env msg r w).trace →
        t = ((env.readClock msg w).1.nanos + r.RemindAfter) / Second ∧
        0 ≤ (env.readClock msg w).1.nanos + r.RemindAfter - t * Second ∧
        (env.readClock msg w).1.nanos + r.RemindAfter - t * Second < Second) ∧
    (∀ (r : rule) (w : σ) p u, (env.resolve msg w).1 = .ok (some p) → channelURL p = some u →
      (ruleBody env msg r w).trace[1]? =
        some (.remindersAdd (displayText p msg.Text u msg.Channel)
          (((env.readClock msg w).1.nanos + r.RemindAfter) / Second)
          (env.register msg r w p u).1)) ∧
    (∀ (rules : List rule) (w : σ) text t res,
      Action.remindersAdd text t res ∈ (handleRules env msg rules w).trace →
        ∃ r ∈ rules, r.Pattern.MatchString msg.Text = some true ∧
          ∃ w1, t = ((env.readClock msg w1).1.nanos + r.RemindAfter) / Second) ∧
    (∀ (first rest : List rule) (r : rule) (w : σ) p u,
      (handleRules env msg first w).panicked = false →
      r.Pattern.MatchString msg.Text = some true →
      (env.resolve msg (handleRules env msg first w).world).1 = .ok (some p) →
      channelURL p = some u →
      (handleRules env msg (first ++ r :: rest) w).trace[
          (handleRules env msg first w).trace.length + 1]? =
        some (.remindersAdd (displayText p msg.Text u msg.Channel)
          (((env.readClock msg (handleRules env msg first w).world).1.nanos + r.RemindAfter) /
            Second)
          (env.register msg r (handleRules env msg first w).world p u).1)) ∧
    (∀ (rules : List rule) (w : σ) (i : Nat) text t res,
      (handleRules env msg rules w).trace[i]? = some (.remindersAdd text t res) →
        ∃ first r rest, rules = first ++ r :: rest ∧
          r.Pattern.MatchString msg.Text = some true ∧
          (handleRules env msg first w).panicked = false ∧
          i = (handleRules env msg first w).trace.length + 1 ∧
          t = ((env.readClock msg (handleRules env msg first w).world).1.nanos +
            r.RemindAfter) / Second) := by
  have hfloor : ∀ (r : rule) (w : σ),
      triggerTime (env.readClock msg w).1 r.RemindAfter =
        ((env.readClock msg w).1.nanos + r.RemindAfter) / Second :=
    fun r w => (triggerTime_floor _ _).1
  refine ⟨?_, ?_, ?_, ?_, ?_⟩
  · intro r w text t res hmem
    have ht := ruleBody_mem_registration env msg r w text t res hmem
    have h3 := triggerTime_floor (env.readClock msg w).1 r.RemindAfter
    rw [← ht] at h3
    exact h3
  · intro r w p u hp hu
    rw [← hfloor]
    cases ha : (env.register msg r w p u).1 with
    | error err => rw [ruleBody_add_failed env msg r w p u err hp hu ha]; rfl
    | ok x => cases x; rw [ruleBody_add_ok env msg r w p u hp hu ha]; rfl
  · intro rules w text t res hmem
    obtain ⟨r, hr, hm, w1, h1⟩ := mem_handleRules_trace env msg rules w _ hmem
    exact ⟨r, hr, hm, w1, by rw [← hfloor]; exact ruleBody_mem_registration env msg r w1 text t res h1⟩
  · intro first rest r w p u hrun hr hp hu
    rw [← hfloor]
    exact handleRules_registration_at env msg first rest r w p u hrun hr hp hu
  · intro rules w i text t res h
    obtain ⟨first, r, rest, hsplit, hm, hrun, hi, ht⟩ :=
      handleRules_registration env msg rules w i text t res h
    exact ⟨first, r, rest, hsplit, hm, hrun, hi, by rw [← hfloor]; exact ht⟩

/-- C5 at the scenario of two matching rules, one hour and two hours, with
the clock at 1 700 000 000.25 s and then at 1 700 000 001.75 s: the Match of
the first rule is registered, as the second step, with its own hour, and the
Match of the second rule, as the sixth step, with its own two hours. -/
theorem C5_trigger_time_witness :
    ((ruleBody sampleEnv sampleMsg secretRule
        ⟨[.ok (some samplePermalink)], [.ok ()], [.ok ()], [sampleNow]⟩).trace[1]? =
      some (.remindersAdd
        (displayText samplePermalink sampleMsg.Text (ascii "https://x.slack.com/archives/C1")
          sampleMsg.Channel)
        ((1700000000250000000 + 3600000000000) / Second) (.ok ()))) ∧
    ((handleRules sampleEnv sampleMsg ([secretRule] ++ xyzRule :: [])
        ⟨[.ok (some samplePermalink), .ok (some samplePermalink)], [.ok (), .ok ()],
          [.ok (), .ok ()], [sampleNow, ⟨1700000001, 750000000, by decide⟩]⟩).trace[4 + 1]? =
      some (.remindersAdd
        (displayText samplePermalink sampleMsg.Text (ascii "https://x.slack.com/archives/C1")
          sampleMsg.Channel)
        ((1700000001750000000 + 7200000000000) / Second) (.ok ()))) ∧
    ((handleRules sampleEnv sampleMsg ([] ++ secretRule :: [xyzRule])
        ⟨[.ok (some samplePermalink), .ok (some samplePermalink)], [.ok (), .ok ()],
          [.ok (), .ok ()], [sampleNow, ⟨1700000001, 750000000, by decide⟩]⟩).trace[0 + 1]? =
      some (.remindersAdd
        (displayText samplePermalink sampleMsg.Text (ascii "https://x.slack.com/archives/C1")
          sampleMsg.Channel)
        ((1700000000250000000 + 3600000000000) / Second) (.ok ()))) ∧
    registeredTimes (handleRules sampleEnv sampleMsg [secretRule, xyzRule]
        ⟨[.ok (some samplePermalink), .ok (some samplePermalink)], [.ok (), .ok ()],
          [.ok (), .ok ()], [sampleNow, ⟨1700000001, 750000000, by decide⟩]⟩).trace =
      [1700003600, 1700007201] :=
  ⟨(C5_trigger_time sampleEnv sampleMsg).2.1 secretRule
      ⟨[.ok (some samplePermalink)], [.ok ()], [.ok ()], [sampleNow]⟩ samplePermalink
      (ascii "https://x.slack.com/archives/C1") rfl (by decide),
    (C5_trigger_time sampleEnv sampleMsg).2.2.2.1 [secretRule] [] xyzRule
      ⟨[.ok (some samplePermalink), .ok (some samplePermalink)], [.ok (), .ok ()],
        [.ok (), .ok ()], [sampleNow, ⟨1700000001, 750000000, by decide⟩]⟩ samplePermalink
      (ascii "https://x.slack.com/archives/C1") (by decide) (by decide) (by decide) (by decide),
    (C5_trigger_time sampleEnv sampleMsg).2.2.2.1 [] [xyzRule] secretRule
      ⟨[.ok (some samplePermalink), .ok (some samplePermalink)], [.ok (), .ok ()],
        [.ok (), .ok ()], [sampleNow, ⟨1700000001, 750000000, by decide⟩]⟩ samplePermalink
      (ascii "https://x.slack.com/archives/C1") (by decide) (by decide) (by decide) (by decide),
    by decide⟩

/-! ## C9: the sign of the delay -/

/-- C9, refuted as stated. The rule with the delay of minus one hour is a
value of the rule type (the delay is within `int64`), the loading code hands
the decoded rule to the loop unchanged, and for a message that matches it the
loop registers the reminder at 1 699 996 400, one hour before the second
1 700 000 000 of the clock reading. -/
theorem C9_negative_delay_counterexample :
    backdatedRule.wellTyped ∧ backdatedRule.RemindAfter < 0 ∧
    (loadConfig (fun _ => .ok ⟨[backdatedRule]⟩)
        (ascii "rules:\n- pattern: SECRET\n  remind_after: -1h\n")).map
      (fun conf => conf.Rules.map rule.RemindAfter) = some [-3600000000000] ∧
    (ruleBody sampleEnv sampleMsg backdatedRule
        ⟨[.ok (some samplePermalink)], [.ok ()], [.ok ()], [sampleNow]⟩).trace[1]? =
      some (.remindersAdd
        (displayText samplePermalink sampleMsg.Text (ascii "https://x.slack.com/archives/C1")
          sampleMsg.Channel)
        1699996400 (.ok ())) ∧
    (1699996400 : Int) < sampleNow.Unix := by
  decide

/-- C9, amended. The loading code keeps what the decoder returns: it yields
a configuration exactly when the decoder succeeds, and then that very
configuration, delays included. For a rule whose delay is not negative, every
reminder that the loop body registers carries a time that is not before the
Unix second of the clock reading. -/
theorem C9_nonnegative_delay_not_before_now {σ : Type} (env : Env σ) (msg : MessageEvent)
    (r : rule) (w : σ) (hd : 0 ≤ r.RemindAfter) :
    (∀ text t res, Action.remindersAdd text t res ∈ (ruleBody env msg r w).trace →
      (env.readClock msg w).1.Unix ≤ t) ∧
    (∀ (unmarshal : GoString → Except GoString config) (b : GoString) (conf : config),
      loadConfig unmarshal b = some conf ↔ unmarshal b = .ok conf) := by
  constructor
  · intro text t res hmem
    have ht : t = triggerTime (env.readClock msg w).1 r.RemindAfter := by
      rcases ruleBody_cases env msg r w with ⟨_, hb⟩ | ⟨err, _, hb⟩ | ⟨p, _, _, hb⟩ |
        ⟨p, u, err, _, _, _, hb⟩ | ⟨p, u, _, _, _, hb⟩ <;>
      · rw [hb] at hmem
        simp at hmem
        try exact hmem.2.1
    rw [ht]
    exact triggerTime_mono _ _ hd
  · intro unmarshal b conf
    unfold loadConfig
    cases unmarshal b <;> simp

/-- C9 amended, at the rule `SECRET` with its delay of one hour. -/
theorem C9_nonnegative_delay_not_before_now_witness :
    (0 : Int) ≤ secretRule.RemindAfter ∧
    sampleNow.Unix ≤ 1700003600 :=
  ⟨by decide,
    (C9_nonnegative_delay_not_before_now sampleEnv sampleMsg secretRule
      ⟨[.ok (some samplePermalink)], [.ok ()], [.ok ()], [sampleNow]⟩ (by decide)).1
      (displayText samplePermalink sampleMsg.Text (ascii "https://x.slack.com/archives/C1")
        sampleMsg.Channel) 1700003600 (.ok ()) (by decide)⟩

/-! ## C6: the acknowledgment -/

/-- C6. While an event is handled, whatever the remote calls answer:
the ephemeral posts are as many as the registrations that succeeded; in the
loop body of one Match a post is made exactly when the registration of that
Match succeeded, and then it is the step after the registration and its log
line; every post goes to the channel of the event, names the author of the
event as its single recipient, and its text is `set reminder after ` followed
by the delay of a matching rule as `%s` prints it (in the body of rule `r`,
the delay of `r`); and after a registration that failed, the body stops with
the log line and the loop goes on with the rules that follow. -/
theorem C6_acknowledgment_iff_registered {σ : Type} (env : Env σ) (msg : MessageEvent) :
    (∀ (rules : List rule) (w : σ),
      (handleRules env msg rules w).trace.countP Action.isPostEphemeral =
        (handleRules env msg rules w).trace.countP Action.isRegistered) ∧
    (∀ (r : rule) (w : σ),
      (ruleBody env msg r w).trace.any Action.isPostEphemeral =
        (ruleBody env msg r w).trace.any Action.isRegistered) ∧
    (∀ (r : rule) (w : σ) p u, (env.resolve msg w).1 = .ok (some p) → channelURL p = some u →
      (env.register msg r w p u).1 = .ok () →
      (ruleBody env msg r w).trace.drop 1 =
        [.remindersAdd (displayText p msg.Text u msg.Channel)
            (triggerTime (env.readClock msg w).1 r.RemindAfter) (.ok ()),
          .log (ascii "set reminder after " ++ env.durationString r.RemindAfter ++
            ascii ": " ++ env.quote msg.Text),
          .postEphemeral msg.Channel
            (ascii "set reminder after " ++ env.durationString r.RemindAfter) msg.User
            (env.acknowledge msg r w p u).1]) ∧
    (∀ (r : rule) (w : σ) channel text user res,
      Action.postEphemeral channel text user res ∈ (ruleBody env msg r w).trace →
        channel = msg.Channel ∧ user = msg.User ∧
          text = ascii "set reminder after " ++ env.durationString r.RemindAfter) ∧
    (∀ (rules : List rule) (w : σ) channel text user res,
      Action.postEphemeral channel text user res ∈ (handleRules env msg rules w).trace →
        channel = msg.Channel ∧ user = msg.User ∧
          ∃ r ∈ rules, r.Pattern.MatchString msg.Text = some true ∧
            text = ascii "set reminder after " ++ env.durationString r.RemindAfter) ∧
    (∀ (r : rule) (rs : List rule) (w : σ) p u err,
      r.Pattern.MatchString msg.Text = some true → (env.resolve msg w).1 = .ok (some p) →
      channelURL p = some u → (env.register msg r w p u).1 = .error err →
      handleRules env msg (r :: rs) w =
        ⟨[.getPermalink msg.Channel msg.Timestamp (.ok (some p)),
            .remindersAdd (displayText p msg.Text u msg.Channel)
              (triggerTime (env.readClock msg w).1 r.RemindAfter) (.error err),
            .log (ascii "failed to set reminder: " ++ err)] ++
            (handleRules env msg rs (env.register msg r w p u).2).trace,
          (handleRules env msg rs (env.register msg r w p u).2).world,
          (handleRules env msg rs (env.register msg r w p u).2).panicked⟩) := by
  have hpost : ∀ (r : rule) (w : σ) channel text user res,
      Action.postEphemeral channel text user res ∈ (ruleBody env msg r w).trace →
        channel = msg.Channel ∧ user = msg.User ∧
          text = ascii "set reminder after " ++ env.durationString r.RemindAfter := by
    intro r w channel text user res hmem
    rcases ruleBody_cases env msg r w with ⟨_, hb⟩ | ⟨err, _, hb⟩ | ⟨p, _, _, hb⟩ |
      ⟨p, u, err, _, _, _, hb⟩ | ⟨p, u, _, _, _, hb⟩ <;>
    · rw [hb] at hmem
      simp at hmem
      try exact ⟨hmem.1, hmem.2.2.1, hmem.2.1⟩
  refine ⟨?_, ?_, ?_, hpost, ?_, ?_⟩
  · intro rules w
    exact handleRules_posts_eq_registered env msg rules w
  · intro r w
    rcases ruleBody_cases env msg r w with ⟨_, hb⟩ | ⟨err, _, hb⟩ | ⟨p, _, _, hb⟩ |
      ⟨p, u, err, _, _, _, hb⟩ | ⟨p, u, _, _, _, hb⟩ <;> rw [hb] <;> rfl
  · intro r w p u hp hu ha
    rw [ruleBody_add_ok env msg r w p u hp hu ha]
    rfl
  · intro rules w channel text user res hmem
    obtain ⟨r, hr, hm, w1, h1⟩ := mem_handleRules_trace env msg rules w _ hmem
    obtain ⟨h2, h3, h4⟩ := hpost r w1 channel text user res h1
    exact ⟨h2, h3, r, hr, hm, h4⟩
  · intro r rs w p u err hr hp hu ha
    rw [handleRules_cons_of_match env msg r rs w hr,
      ruleBody_add_failed env msg r w p u err hp hu ha, andThen_of_running _ _ rfl]

/-- C6 at the scenario of the specification with a second matching rule whose
registration fails: one acknowledgment for the first Match, in channel `C1`
to user `U1`, none for the second, and both Matches are handled. -/
theorem C6_acknowledgment_iff_registered_witness :
    (handleRules sampleEnv sampleMsg [secretRule, xyzRule]
        ⟨[.ok (some samplePermalink), .ok (some samplePermalink)], [.ok (), .error (ascii "boom")],
          [.ok ()], [sampleNow, sampleNow]⟩).trace.countP Action.isPostEphemeral =
      (handleRules sampleEnv sampleMsg [secretRule, xyzRule]
        ⟨[.ok (some samplePermalink), .ok (some samplePermalink)], [.ok (), .error (ascii "boom")],
          [.ok ()], [sampleNow, sampleNow]⟩).trace.countP Action.isRegistered ∧
    (handleRules sampleEnv sampleMsg [secretRule, xyzRule]
        ⟨[.ok (some samplePermalink), .ok (some samplePermalink)], [.ok (), .error (ascii "boom")],
          [.ok ()], [sampleNow, sampleNow]⟩).trace.filter Action.isPostEphemeral =
      [.postEphemeral (ascii "C1") (ascii "set reminder after 1h0m0s") (ascii "U1") (.ok ())] ∧
    (ruleBody sampleEnv sampleMsg secretRule
        ⟨[.ok (some samplePermalink)], [.ok ()], [.ok ()], [sampleNow]⟩).trace.drop 1 =
      [.remindersAdd
          (displayText samplePermalink sampleMsg.Text (ascii "https://x.slack.com/archives/C1")
            sampleMsg.Channel)
          (triggerTime (sampleEnv.readClock sampleMsg
            ⟨[.ok (some samplePermalink)], [.ok ()], [.ok ()], [sampleNow]⟩).1 secretRule.RemindAfter)
          (.ok ()),
        .log (ascii "set reminder after " ++ sampleEnv.durationString secretRule.RemindAfter ++
          ascii ": " ++ sampleEnv.quote sampleMsg.Text),
        .postEphemeral sampleMsg.Channel
          (ascii "set reminder after " ++ sampleEnv.durationString secretRule.RemindAfter)
          sampleMsg.User
          (sampleEnv.acknowledge sampleMsg secretRule
            ⟨[.ok (some samplePermalink)], [.ok ()], [.ok ()], [sampleNow]⟩ samplePermalink
            (ascii "https://x.slack.com/archives/C1")).1] :=
  ⟨(C6_acknowledgment_iff_registered sampleEnv sampleMsg).1 [secretRule, xyzRule]
      ⟨[.ok (some samplePermalink), .ok (some samplePermalink)], [.ok (), .error (ascii "boom")],
        [.ok ()], [sampleNow, sampleNow]⟩,
    by decide,
    (C6_acknowledgment_iff_registered sampleEnv sampleMsg).2.2.1 secretRule
      ⟨[.ok (some samplePermalink)], [.ok ()], [.ok ()], [sampleNow]⟩ samplePermalink
      (ascii "https://x.slack.com/archives/C1") rfl (by decide) rfl⟩

/-! ## C8: what is logged when a remote call fails -/

/-- C8, refuted as stated. In the scenario of the specification (rule
`SECRET`, one hour, message `printed SECRET=xyz`): when the permalink
resolution fails with the error `boom` the one log line is
`failed to get permalink: boom`, when the registration fails it is
`failed to set reminder: boom`, and neither line contains the delay `1h0m0s`
or the message text; when the acknowledgment post fails nothing is logged for
it, the last log line being the one written before the post. -/
theorem C8_failure_log_counterexample :
    (ruleBody sampleEnv sampleMsg secretRule ⟨[.error (ascii "boom")], [], [], []⟩).trace =
      [.getPermalink (ascii "C1") (ascii "123.456") (.error (ascii "boom")),
        .log (ascii "failed to get permalink: boom")] ∧
    ¬ (sampleMsg.Text <:+: ascii "failed to get permalink: boom") ∧
    ¬ (sampleEnv.durationString secretRule.RemindAfter <:+:
        ascii "failed to get permalink: boom") ∧
    (ruleBody sampleEnv sampleMsg secretRule
        ⟨[.ok (some samplePermalink)], [.error (ascii "boom")], [], [sampleNow]⟩).trace.filter
          Action.isLog =
      [.log (ascii "failed to set reminder: boom")] ∧
    ¬ (sampleMsg.Text <:+: ascii "failed to set reminder: boom") ∧
    ¬ (sampleEnv.durationString secretRule.RemindAfter <:+:
        ascii "failed to set reminder: boom") ∧
    (ruleBody sampleEnv sampleMsg secretRule
        ⟨[.ok (some samplePermalink)], [.ok ()], [.error (ascii "boom")], [sampleNow]⟩).trace.drop 2 =
      [.log (ascii "set reminder after 1h0m0s: \"printed SECRET=xyz\""),
        .postEphemeral (ascii "C1") (ascii "set reminder after 1h0m0s") (ascii "U1")
          (.error (ascii "boom"))] := by
  decide

/-- C8, amended. For the loop body of a Match, whatever the rule and the
world: a permalink resolution that fails with the error `err` leaves exactly
the call and the one log line `failed to get permalink: ` followed by `err`; a
registration that fails leaves the two calls and the one log line
`failed to set reminder: ` followed by `err`; an acknowledgment post that fails
leaves no log line of its own (the last log line is the one written before
the post). None of the three ends in a panic, and when the body of a matching
rule does not, the loop goes on with the rules that follow, from the world the
body left. No call is repeated: the body makes one permalink call and at most
one registration and one post. -/
theorem C8_remote_failures_are_logged_and_skipped {σ : Type} (env : Env σ)
    (msg : MessageEvent) (r : rule) (rs : List rule) (w : σ) :
    (∀ err, (env.resolve msg w).1 = .error err →
      ruleBody env msg r w =
        ⟨[.getPermalink msg.Channel msg.Timestamp (.error err),
            .log (ascii "failed to get permalink: " ++ err)],
          (env.resolve msg w).2, false⟩) ∧
    (∀ p u err, (env.resolve msg w).1 = .ok (some p) → channelURL p = some u →
      (env.register msg r w p u).1 = .error err →
      ruleBody env msg r w =
        ⟨[.getPermalink msg.Channel msg.Timestamp (.ok (some p)),
            .remindersAdd (displayText p msg.Text u msg.Channel)
              (triggerTime (env.readClock msg w).1 r.RemindAfter) (.error err),
            .log (ascii "failed to set reminder: " ++ err)],
          (env.register msg r w p u).2, false⟩) ∧
    (∀ p u err, (env.resolve msg w).1 = .ok (some p) → channelURL p = some u →
      (env.register msg r w p u).1 = .ok () → (env.acknowledge msg r w p u).1 = .error err →
      ruleBody env msg r w =
        ⟨[.getPermalink msg.Channel msg.Timestamp (.ok (some p)),
            .remindersAdd (displayText p msg.Text u msg.Channel)
              (triggerTime (env.readClock msg w).1 r.RemindAfter) (.ok ()),
            .log (ascii "set reminder after " ++ env.durationString r.RemindAfter ++
              ascii ": " ++ env.quote msg.Text),
            .postEphemeral msg.Channel (ackText env r) msg.User (.error err)],
          (env.acknowledge msg r w p u).2, false⟩) ∧
    (r.Pattern.MatchString msg.Text = some true → (ruleBody env msg r w).panicked = false →
      handleRules env msg (r :: rs) w =
        ⟨(ruleBody env msg r w).trace ++
            (handleRules env msg rs (ruleBody env msg r w).world).trace,
          (handleRules env msg rs (ruleBody env msg r w).world).world,
          (handleRules env msg rs (ruleBody env msg r w).world).panicked⟩) ∧
    (ruleBody env msg r w).trace.countP Action.isGetPermalink = 1 ∧
    (ruleBody env msg r w).trace.countP Action.isRemindersAdd ≤ 1 ∧
    (ruleBody env msg r w).trace.countP Action.isPostEphemeral ≤ 1 := by
  refine ⟨fun err h => ruleBody_permalink_failed env msg r w err h,
    fun p u err hp hu ha => ruleBody_add_failed env msg r w p u err hp hu ha, ?_, ?_,
    ruleBody_permalinkCalls env msg r w, ruleBody_calls_at_most_once env msg r w⟩
  · intro p u err hp hu ha he
    rw [ruleBody_add_ok env msg r w p u hp hu ha, he]
  · intro hr hp
    rw [handleRules_cons_of_match env msg r rs w hr, andThen_of_running _ _ hp]

/-- C8 amended, at a failing permalink resolution followed by a second
matching rule: the second rule is still handled. -/
theorem C8_remote_failures_are_logged_and_skipped_witness :
    ruleBody sampleEnv sampleMsg secretRule
        ⟨[.error (ascii "boom"), .ok (some samplePermalink)], [.ok ()], [.ok ()], [sampleNow]⟩ =
      ⟨[.getPermalink sampleMsg.Channel sampleMsg.Timestamp (.error (ascii "boom")),
          .log (ascii "failed to get permalink: " ++ ascii "boom")],
        (sampleEnv.resolve sampleMsg
          ⟨[.error (ascii "boom"), .ok (some samplePermalink)], [.ok ()], [.ok ()], [sampleNow]⟩).2,
        false⟩ ∧
    (handleRules sampleEnv sampleMsg [secretRule, xyzRule]
        ⟨[.error (ascii "boom"), .ok (some samplePermalink)], [.ok ()], [.ok ()],
          [sampleNow]⟩).trace.length = 6 :=
  ⟨(C8_remote_failures_are_logged_and_skipped sampleEnv sampleMsg secretRule [xyzRule]
      ⟨[.error (ascii "boom"), .ok (some samplePermalink)], [.ok ()], [.ok ()], [sampleNow]⟩).1
      (ascii "boom") rfl,
    by decide⟩

/-! ## C1: one Match for every matching rule -/

/-- C1, evaluated at three inputs on which the loop falls short of it.
In each the message `printed SECRET=xyz` of the monitored user is handled.
First, with the rules `SECRET` and `xyz`, both matching, the permalink of the
first Match resolves to `nopath`: the slice of line 99 panics after the one
permalink call and no permalink is resolved for the second matching rule.
Second, with the same rules, the permalink call of the first Match returns a
nil response with a nil error: line 98 panics, again after one permalink call.
Third, with a rule decoded without a `pattern` key ahead of the rule `SECRET`,
every permalink well formed: the pattern test of line 88 panics on the nil
pattern and no permalink is resolved for the matching rule `SECRET`. On a run
without a panic the permalink calls are as many as the matching rules
(`handleRules_permalinkCalls_of_running`). -/
theorem C1_unchecked_failure_ends_the_handling :
    ((matchesOf [secretRule, xyzRule] sampleMsg).length = 2 ∧
      (handleEvent sampleEnv ⟨[secretRule, xyzRule]⟩ sampleUser
          ⟨EventType.MessageType, EventData.message sampleMsg⟩
          ⟨[.ok (some (ascii "nopath")), .ok (some samplePermalink)], [.ok (), .ok ()],
            [.ok (), .ok ()], [sampleNow, sampleNow]⟩).trace =
        [.getPermalink (ascii "C1") (ascii "123.456") (.ok (some (ascii "nopath")))] ∧
      (handleEvent sampleEnv ⟨[secretRule, xyzRule]⟩ sampleUser
          ⟨EventType.MessageType, EventData.message sampleMsg⟩
          ⟨[.ok (some (ascii "nopath")), .ok (some samplePermalink)], [.ok (), .ok ()],
            [.ok (), .ok ()], [sampleNow, sampleNow]⟩).panicked = true) ∧
    ((handleEvent sampleEnv ⟨[secretRule, xyzRule]⟩ sampleUser
          ⟨EventType.MessageType, EventData.message sampleMsg⟩
          ⟨[.ok none, .ok (some samplePermalink)], [.ok (), .ok ()],
            [.ok (), .ok ()], [sampleNow, sampleNow]⟩).trace =
        [.getPermalink (ascii "C1") (ascii "123.456") (.ok none)] ∧
      (handleEvent sampleEnv ⟨[secretRule, xyzRule]⟩ sampleUser
          ⟨EventType.MessageType, EventData.message sampleMsg⟩
          ⟨[.ok none, .ok (some samplePermalink)], [.ok (), .ok ()],
            [.ok (), .ok ()], [sampleNow, sampleNow]⟩).panicked = true) ∧
    ((matchesOf [patternlessRule, secretRule] sampleMsg).length = 1 ∧
      (handleEvent sampleEnv ⟨[patternlessRule, secretRule]⟩ sampleUser
          ⟨EventType.MessageType, EventData.message sampleMsg⟩
          ⟨[.ok (some samplePermalink)], [.ok ()], [.ok ()], [sampleNow]⟩).trace = [] ∧
      (handleEvent sampleEnv ⟨[patternlessRule, secretRule]⟩ sampleUser
          ⟨EventType.MessageType, EventData.message sampleMsg⟩
          ⟨[.ok (some samplePermalink)], [.ok ()], [.ok ()], [sampleNow]⟩).panicked = true) := by
  decide

/-! ## Lemmas on the scripted world -/

section Scripted

variable (ds : Int → GoString) (q : GoString → GoString) (msg : MessageEvent)

/-- The loop body takes one permalink outcome off the script, whatever course it takes. -/
theorem script_ruleBody_perms (r : rule) (s : Script) :
    (ruleBody (scriptEnv ds q) msg r s).world.perms = s.perms.tail := by
  rcases s with ⟨ps, as, os, c⟩
  rcases ps with _ | ⟨p0, ps⟩
  · simp [ruleBody, scriptEnv]
  · rcases p0 with err | _ | p
    · simp [ruleBody, scriptEnv]
    · simp [ruleBody, scriptEnv]
    · simp only [ruleBody, scriptEnv]
      cases channelURL p with
      | none => simp
      | some u =>
        rcases as with _ | ⟨a0, as⟩ <;> rcases c with _ | ⟨c0, c⟩ <;>
          rcases os with _ | ⟨o0, os⟩ <;> try rcases a0 with e1 | x1
        all_goals simp

/-- Outcomes appended to the permalink script are left untouched by the loop
body, provided the script has an outcome for it. -/
theorem script_ruleBody_frame (r : rule) (p0 : Except GoString (Option GoString))
    (ps x : List (Except GoString (Option GoString))) (as os : List (Except GoString Unit))
    (c : List Time) :
    ruleBody (scriptEnv ds q) msg r ⟨p0 :: ps ++ x, as, os, c⟩ =
      ⟨(ruleBody (scriptEnv ds q) msg r ⟨p0 :: ps, as, os, c⟩).trace,
        { (ruleBody (scriptEnv ds q) msg r ⟨p0 :: ps, as, os, c⟩).world with
          perms := (ruleBody (scriptEnv ds q) msg r ⟨p0 :: ps, as, os, c⟩).world.perms ++ x },
        (ruleBody (scriptEnv ds q) msg r ⟨p0 :: ps, as, os, c⟩).panicked⟩ := by
  rcases p0 with err | _ | p
  · simp [ruleBody, scriptEnv]
  · simp [ruleBody, scriptEnv]
  · simp only [ruleBody, scriptEnv, List.cons_append]
    cases channelURL p with
    | none => simp
    | some u =>
      rcases as with _ | ⟨a0, as⟩ <;> rcases c with _ | ⟨c0, c⟩ <;>
        rcases os with _ | ⟨o0, os⟩ <;> try rcases a0 with e1 | x1
      all_goals simp

theorem script_handleRules_frame (rules : List rule)
    (ps x : List (Except GoString (Option GoString))) (as os : List (Except GoString Unit))
    (c : List Time) (h : (matchesOf rules msg).length ≤ ps.length) :
    handleRules (scriptEnv ds q) msg rules ⟨ps ++ x, as, os, c⟩ =
      ⟨(handleRules (scriptEnv ds q) msg rules ⟨ps, as, os, c⟩).trace,
        { (handleRules (scriptEnv ds q) msg rules ⟨ps, as, os, c⟩).world with
          perms := (handleRules (scriptEnv ds q) msg rules ⟨ps, as, os, c⟩).world.perms ++ x },
        (handleRules (scriptEnv ds q) msg rules ⟨ps, as, os, c⟩).panicked⟩ := by
  induction rules generalizing ps as os c with
  | nil => simp [handleRules]
  | cons r rs ih =>
    rcases matchString_cases r msg.Text with hr | hr | hr
    · rw [handleRules_cons_of_nil_pattern _ msg r rs _ hr,
        handleRules_cons_of_nil_pattern _ msg r rs _ hr]
    · rw [handleRules_cons_of_no_match _ msg r rs _ hr,
        handleRules_cons_of_no_match _ msg r rs _ hr]
      rw [matchesOf_cons_of_no_match r rs msg hr] at h
      exact ih ps as os c h
    · rw [matchesOf_cons_of_match r rs msg hr] at h
      rcases ps with _ | ⟨p0, ps⟩
      · simp at h
      · have hperms := script_ruleBody_perms ds q msg r ⟨p0 :: ps, as, os, c⟩
        have hframe := script_ruleBody_frame ds q msg r p0 ps x as os c
        rw [handleRules_cons_of_match _ msg r rs _ hr,
          handleRules_cons_of_match _ msg r rs _ hr, hframe]
        cases hp : (ruleBody (scriptEnv ds q) msg r ⟨p0 :: ps, as, os, c⟩).panicked
        · rcases hw : (ruleBody (scriptEnv ds q) msg r ⟨p0 :: ps, as, os, c⟩).world with
            ⟨ps1, as1, os1, c1⟩
          rw [hw] at hperms
          simp only [List.tail_cons] at hperms
          subst hperms
          have hlen : (matchesOf rs msg).length ≤ ps1.length := by
            simp only [List.length_cons] at h
            omega
          simp only [Result.andThen, hp, hw, Bool.false_eq_true, if_false]
          rw [ih ps1 as1 os1 c1 hlen]
        · simp [Result.andThen, hp]

theorem script_handleRules_perms (rules : List rule) (s : Script)
    (hrun : (handleRules (scriptEnv ds q) msg rules s).panicked = false) :
    (handleRules (scriptEnv ds q) msg rules s).world.perms =
      s.perms.drop (matchesOf rules msg).length := by
  induction rules generalizing s with
  | nil => simp [handleRules, matchesOf]
  | cons r rs ih =>
    rcases matchString_cases r msg.Text with hr | hr | hr
    · rw [handleRules_cons_of_nil_pattern _ msg r rs _ hr] at hrun
      cases hrun
    · rw [handleRules_cons_of_no_match _ msg r rs _ hr] at hrun ⊢
      rw [matchesOf_cons_of_no_match r rs msg hr]
      exact ih s hrun
    · have hperms := script_ruleBody_perms ds q msg r s
      rw [handleRules_cons_of_match _ msg r rs _ hr] at hrun ⊢
      rw [matchesOf_cons_of_match r rs msg hr]
      cases hp : (ruleBody (scriptEnv ds q) msg r s).panicked
      · rw [andThen_of_running _ _ hp] at hrun ⊢
        simp only at hrun ⊢
        rw [ih _ hrun, hperms]
        simp [List.drop_one]
      · rw [andThen_of_panicked _ _ hp] at hrun
        rw [hp] at hrun
        cases hrun

/-- The rules before the failing Match use up their part of the permalink
script and leave the rest of it for the rules that follow. -/
theorem script_handleRules_first (first : List rule)
    (ps1 y : List (Except GoString (Option GoString))) (as os : List (Except GoString Unit))
    (c : List Time) (hlen : ps1.length = (matchesOf first msg).length)
    (hrun : (handleRules (scriptEnv ds q) msg first ⟨ps1, as, os, c⟩).panicked = false) :
    handleRules (scriptEnv ds q) msg first ⟨ps1 ++ y, as, os, c⟩ =
      ⟨(handleRules (scriptEnv ds q) msg first ⟨ps1, as, os, c⟩).trace,
        { (handleRules (scriptEnv ds q) msg first ⟨ps1, as, os, c⟩).world with perms := y },
        false⟩ := by
  have hperms := script_handleRules_perms ds q msg _ _ hrun
  simp only [← hlen, List.drop_length] at hperms
  rw [script_handleRules_frame ds q msg _ ps1 y as os c (le_of_eq hlen.symm), hperms, hrun]
  simp

/-- With and without the rule whose permalink resolution fails: the same
steps, but for the failed call and its log line. -/
theorem script_failed_permalink (first rest : List rule) (r : rule)
    (ps1 ps2 : List (Except GoString (Option GoString))) (err : GoString)
    (as os : List (Except GoString Unit)) (c : List Time)
    (hr : r.Pattern.MatchString msg.Text = some true)
    (hlen : ps1.length = (matchesOf first msg).length)
    (hrun : (handleRules (scriptEnv ds q) msg first ⟨ps1, as, os, c⟩).panicked = false) :
    ∃ T : Result Script,
      handleRules (scriptEnv ds q) msg (first ++ rest) ⟨ps1 ++ ps2, as, os, c⟩ =
        ⟨(handleRules (scriptEnv ds q) msg first ⟨ps1, as, os, c⟩).trace ++ T.trace,
          T.world, T.panicked⟩ ∧
      handleRules (scriptEnv ds q) msg (first ++ r :: rest)
          ⟨ps1 ++ .error err :: ps2, as, os, c⟩ =
        ⟨(handleRules (scriptEnv ds q) msg first ⟨ps1, as, os, c⟩).trace ++
            ([.getPermalink msg.Channel msg.Timestamp (.error err),
              .log (ascii "failed to get permalink: " ++ err)] ++ T.trace),
          T.world, T.panicked⟩ := by
  refine ⟨handleRules (scriptEnv ds q) msg rest
    { (handleRules (scriptEnv ds q) msg first ⟨ps1, as, os, c⟩).world with perms := ps2 },
    ?_, ?_⟩
  · rw [handleRules_append, script_handleRules_first ds q msg first ps1 ps2 as os c hlen hrun,
      andThen_of_running _ _ rfl]
  · rw [handleRules_append,
      script_handleRules_first ds q msg first ps1 (.error err :: ps2) as os c hlen hrun,
      andThen_of_running _ _ rfl, handleRules_cons_of_match _ msg r rest _ hr,
      ruleBody_permalink_failed (scriptEnv ds q) msg r
        { (handleRules (scriptEnv ds q) msg first ⟨ps1, as, os, c⟩).world with
          perms := .error err :: ps2 } err rfl,
      andThen_of_running _ _ rfl]
    rfl

end Scripted

/-! ## C3: a failed permalink resolution is isolated -/

/-- C3. The outcomes of the remote calls are fixed by a script. Let the
permalink resolution of the Match of rule `r` fail with the error `err`, the
Matches of the rules before `r` having been handled without a panic (`ps1` are
the permalink outcomes they use up). Then the Match of `r` leaves exactly the
failed call and its log line: no reminder is registered and nothing is posted
for it. Every other step of the handling of the event, the remote calls with
their arguments and outcomes included, is the step taken when `r` is absent
from the rule list and its failing outcome absent from the script; the world
left behind and the panic status are the same, so the events that follow are
handled from the same world in the same way. In any world at all, scripted or
not, the handling after the failed call is the handling of the rules that
follow `r`, started from the world that the failed call left. -/
theorem C3_failed_permalink_is_isolated (ds : Int → GoString) (q : GoString → GoString)
    (msg : MessageEvent) (first rest : List rule) (r : rule) (later : List Event)
    (ps1 ps2 : List (Except GoString (Option GoString))) (err : GoString)
    (as os : List (Except GoString Unit)) (c : List Time)
    (hr : r.Pattern.MatchString msg.Text = some true)
    (hlen : ps1.length = (matchesOf first msg).length)
    (hrun : (handleRules (scriptEnv ds q) msg first ⟨ps1, as, os, c⟩).panicked = false) :
    let before := handleRules (scriptEnv ds q) msg first ⟨ps1, as, os, c⟩
    let absent := handleRules (scriptEnv ds q) msg (first ++ rest) ⟨ps1 ++ ps2, as, os, c⟩
    let present := handleRules (scriptEnv ds q) msg (first ++ r :: rest)
      ⟨ps1 ++ .error err :: ps2, as, os, c⟩
    absent.trace = before.trace ++ absent.trace.drop before.trace.length ∧
    present.trace =
      before.trace ++
        [.getPermalink msg.Channel msg.Timestamp (.error err),
          .log (ascii "failed to get permalink: " ++ err)] ++
        absent.trace.drop before.trace.length ∧
    remoteCalls absent.trace =
      remoteCalls before.trace ++ remoteCalls (absent.trace.drop before.trace.length) ∧
    remoteCalls present.trace =
      remoteCalls before.trace ++
        .getPermalink msg.Channel msg.Timestamp (.error err) ::
          remoteCalls (absent.trace.drop before.trace.length) ∧
    present.world = absent.world ∧
    present.panicked = absent.panicked ∧
    run (scriptEnv ds q) ⟨first ++ r :: rest⟩ msg.User
        (⟨EventType.MessageType, EventData.message msg⟩ :: later)
        ⟨ps1 ++ .error err :: ps2, as, os, c⟩ =
      (Result.mk present.trace absent.world absent.panicked).andThen
        (run (scriptEnv ds q) ⟨first ++ r :: rest⟩ msg.User later) ∧
    (∀ {σ : Type} (env : Env σ) (w : σ) (e : GoString),
      (handleRules env msg first w).panicked = false →
      (env.resolve msg (handleRules env msg first w).world).1 = .error e →
      handleRules env msg (first ++ r :: rest) w =
        (Result.mk
          ((handleRules env msg first w).trace ++
            [.getPermalink msg.Channel msg.Timestamp (.error e),
              .log (ascii "failed to get permalink: " ++ e)])
          (env.resolve msg (handleRules env msg first w).world).2 false).andThen
          (handleRules env msg rest)) := by
  intro before absent present
  obtain ⟨T, habs, hpres⟩ :=
    script_failed_permalink ds q msg first rest r ps1 ps2 err as os c hr hlen hrun
  have h1 : absent = ⟨before.trace ++ T.trace, T.world, T.panicked⟩ := habs
  have h2 : present = ⟨before.trace ++
      ([.getPermalink msg.Channel msg.Timestamp (.error err),
        .log (ascii "failed to get permalink: " ++ err)] ++ T.trace),
      T.world, T.panicked⟩ := hpres
  have hdrop : absent.trace.drop before.trace.length = T.trace := by
    rw [h1]
    simp
  have hrunEv : run (scriptEnv ds q) ⟨first ++ r :: rest⟩ msg.User
        (⟨EventType.MessageType, EventData.message msg⟩ :: later)
        ⟨ps1 ++ .error err :: ps2, as, os, c⟩ =
      present.andThen (run (scriptEnv ds q) ⟨first ++ r :: rest⟩ msg.User later) := by
    simp only [run]
    rw [handleEvent_of_monitored]
  rw [hdrop, hrunEv]
  rw [h1, h2]
  refine ⟨rfl, by simp, ?_, ?_, rfl, rfl, rfl, ?_⟩
  · simp [remoteCalls]
  · simp [remoteCalls, Action.isRemoteCall, Action.isLog]
  · intro σ env w e hfirst hres
    rw [handleRules_append, andThen_of_running _ _ hfirst,
      handleRules_cons_of_match env msg r rest _ hr,
      ruleBody_permalink_failed env msg r _ e hres, andThen_of_running _ _ rfl,
      andThen_of_running _ _ rfl]
    simp

/-- C3 at three matching rules with the resolution of the second failing:
the first and the third Match are handled as without the second rule. -/
theorem C3_failed_permalink_is_isolated_witness :
    xyzRule.Pattern.MatchString sampleMsg.Text = some true ∧
    (handleRules sampleEnv sampleMsg ([secretRule] ++ xyzRule :: [secretRule])
        ⟨[.ok (some samplePermalink)] ++ .error (ascii "boom") :: [.ok (some samplePermalink)],
          [.ok (), .ok ()], [.ok (), .ok ()], [sampleNow, sampleNow]⟩).world =
      (handleRules sampleEnv sampleMsg ([secretRule] ++ [secretRule])
        ⟨[.ok (some samplePermalink)] ++ [.ok (some samplePermalink)],
          [.ok (), .ok ()], [.ok (), .ok ()], [sampleNow, sampleNow]⟩).world ∧
    (remoteCalls (handleRules sampleEnv sampleMsg ([secretRule] ++ xyzRule :: [secretRule])
        ⟨[.ok (some samplePermalink)] ++ .error (ascii "boom") :: [.ok (some samplePermalink)],
          [.ok (), .ok ()], [.ok (), .ok ()], [sampleNow, sampleNow]⟩).trace).length = 7 ∧
    (remoteCalls (handleRules sampleEnv sampleMsg ([secretRule] ++ [secretRule])
        ⟨[.ok (some samplePermalink)] ++ [.ok (some samplePermalink)],
          [.ok (), .ok ()], [.ok (), .ok ()], [sampleNow, sampleNow]⟩).trace).length = 6 :=
  ⟨by decide,
    (C3_failed_permalink_is_isolated secondsDurationString plainQuote sampleMsg [secretRule]
      [secretRule] xyzRule [] [.ok (some samplePermalink)] [.ok (some samplePermalink)] (ascii "boom")
      [.ok (), .ok ()] [.ok (), .ok ()] [sampleNow, sampleNow] (by decide) (by decide)
      (by decide)).2.2.2.2.1,
    by decide, by decide⟩

end SlackSecAutorem
